import Mathlib

/-!
Verification of the spreadsheet-analysis engine in
`app/services/analyze.py` (PNL-COO MVP v0.1.15).

The engine is shallowly embedded: pandas grids become lists of lists of
cells, Python floats become `ℚ` (exact rationals; the claims under test
assert exact identities, which `float` satisfies up to rounding), `None`
becomes `Option`, and the process-wide analysis cache becomes explicit
state passing.  Rendering-only outputs (HTML card fragments, narrative
strings, chart PNGs) are presentation-only projections of the structured
fields modelled here and are not part of the embedding.

One source caveat is load-bearing: `_find_row` calls a helper
`_norm_text` whose definition does not appear anywhere in the sources
(only `_norm` exists).  Reaching that call raises `NameError` at run
time.  The embedding keeps both readings side by side:
`find_row` is the faithful translation (an `Except` value that errors at
the first cell whose normalisation is attempted), while `norm_text` /
`find_rowM` model the missing helper from the spec's words
("normalizes each candidate string (strip whitespace, case-fold)").
-/

namespace PnlCoo

/-! ## Cells and grids -/

/-- A spreadsheet cell as produced by `pd.read_excel(..., header=None)`:
`empty` covers Python `None`/`NaN`, `num` a numeric cell (int/float),
`str` a text cell. -/
inductive Cell where
  | empty : Cell
  | num (q : ℚ) : Cell
  | str (s : String) : Cell
  deriving DecidableEq

/-- A sheet grid: rows of cells.  pandas grids are rectangular; short
rows read as padded with `NaN`, which `getCell`'s default reproduces. -/
abbrev Grid := List (List Cell)

def nrows (g : Grid) : Nat := g.length

def ncols (g : Grid) : Nat := (g.map List.length).foldr max 0

def getCell (g : Grid) (r c : Nat) : Cell :=
  (((g.get? r).getD []).get? c).getD Cell.empty

/-- `val is None or (isinstance(val, float) and pd.isna(val))`. -/
def isNull : Cell → Bool
  | Cell.empty => true
  | _ => false

/-! ## String helpers -/

/-- `_norm`: `re.sub(r"\s+", "", str(s or "")).lower()` — drop all
whitespace, then case-fold. -/
def norm (s : String) : String :=
  ⟨(s.data.filter (fun ch => !ch.isWhitespace)).map Char.toLower⟩

/-- Python's `needle in hay` substring test. -/
def strContains (hay needle : String) : Bool :=
  (List.range (hay.data.length + 1)).any
    (fun i => needle.data.isPrefixOf (hay.data.drop i))

/-- Python's `hay.startswith(needle)`. -/
def strStarts (hay needle : String) : Bool :=
  needle.data.isPrefixOf hay.data

/-- `str(v)` for a cell value.  Numeric cells print their rational value
(the engine only ever matches alphabetic keywords against them, so the
exact numeral format is immaterial). -/
def cellStr : Cell → String
  | Cell.empty => ""
  | Cell.num q => toString q
  | Cell.str s => s

/-! ## Numeric coercion: `_to_float` -/

/-- Parse an optionally signed decimal numeral (digits, optional single
point), as accepted by Python's `float()` on the strings the engine
sees.  Scientific notation, `inf`/`nan` and digit underscores are not
modelled; on any other malformed input the result is `none`, as
`float()` raising inside `_to_float`'s `except` is. -/
def parseDecimal (s : String) : Option ℚ :=
  let afterSign : List Char × Bool :=
    match s.data with
    | '-' :: rest => (rest, true)
    | '+' :: rest => (rest, false)
    | cs => (cs, false)
  let cs := afterSign.1
  let intPart := cs.takeWhile Char.isDigit
  let rest := cs.dropWhile Char.isDigit
  let fracPart : Option (List Char) :=
    match rest with
    | [] => some []
    | '.' :: fs => if fs.all Char.isDigit then some fs else none
    | _ => none
  match fracPart with
  | none => none
  | some fs =>
      if intPart.isEmpty && fs.isEmpty then none
      else
        let digitsVal : List Char → ℚ :=
          fun ds => ds.foldl (fun acc d => acc * 10 + (d.toNat - '0'.toNat : ℕ)) 0
        let ip : ℚ := digitsVal intPart
        let fp : ℚ := digitsVal fs / (10 : ℚ) ^ fs.length
        let v := ip + fp
        some (if afterSign.2 then -v else v)

/-- Python `str.strip()`. -/
def trimChars (cs : List Char) : List Char :=
  ((cs.dropWhile Char.isWhitespace).reverse.dropWhile Char.isWhitespace).reverse

/-- `_to_float`: `None`/`NaN` ↦ absent; strings are stripped, commas
removed, empty ↦ absent, else parsed (unparsable ↦ absent, never zero);
numbers pass through. -/
def to_float : Cell → Option ℚ
  | Cell.empty => none
  | Cell.num q => some q
  | Cell.str s =>
      let t : String := ⟨(trimChars s.data).filter (fun c => c ≠ ',')⟩
      if t = "" then none else parseDecimal t

/-! ## Anchors: `_a1` -/

/-- The `while x:` letter loop, with structural fuel: each iteration
shrinks `x` (since `(x-1)/26 < x` for positive `x`), so `x` itself
bounds the iteration count. -/
def colLettersAux : Nat → Nat → String
  | _, 0 => ""
  | 0, _ + 1 => ""
  | fuel + 1, x + 1 =>
      colLettersAux fuel (x / 26) ++ String.singleton (Char.ofNat (65 + x % 26))

/-- Spreadsheet column letters for 1-based column number `x`
(`A`, `B`, …, `Z`, `AA`, …). -/
def colLetters (x : Nat) : String := colLettersAux x x

/-- `_a1(sheet, r, c)` with 0-based `r`, `c`. -/
def a1 (sheet : String) (r c : Nat) : String :=
  sheet ++ "!" ++ colLetters (c + 1) ++ toString (r + 1)

/-! ## Data model -/

/-- The `Metric` dataclass. -/
structure Metric where
  key : String
  label_en : String
  label_zh : String
  value : Option ℚ
  prev : Option ℚ
  unit : String
  anchor : Option String
  deriving DecidableEq

/-- `Metric.delta_pct`: percent change of `value` against `prev`
(`None` when either is absent or `prev == 0`). -/
def Metric.delta_pct (m : Metric) : Option ℚ :=
  match m.value, m.prev with
  | some v, some p => if p = 0 then none else some ((v - p) / |p| * 100)
  | _, _ => none

/-- An evidence-ledger record; dict keys that a given producer omits are
modelled as `none` fields. -/
structure Evidence where
  metric : String
  sheet : Option String := none
  anchor : Option String := none
  current : Option ℚ := none
  previous : Option ℚ := none
  derived : Option String := none
  deriving DecidableEq

/-- A mapping-backlog record (`MAPPING_GAP` or `SYSTEM_ERROR`). -/
structure Gap where
  type : String
  code : String
  detail : Option String := none
  status : String := "OPEN"
  deriving DecidableEq

/-- One radar signal. -/
structure Signal where
  dim_id : String
  label : String
  score : ℚ
  confidence : ℚ
  evidence : String
  deriving DecidableEq

/-- The cash-cycle block returned by `_extract_cash_cycle` (the `anchors`
sub-dict is flattened into the four `a_*` fields). -/
structure Cash where
  dso : Option ℚ := none
  dio : Option ℚ := none
  dpo : Option ℚ := none
  ccc : Option ℚ := none
  a_dso : Option String := none
  a_dio : Option String := none
  a_dpo : Option String := none
  a_ccc : Option String := none
  deriving DecidableEq

/-- One KPI entry of the UI payload. -/
structure Kpi where
  label : String
  value : Option ℚ
  unit : String
  delta_pct : Option ℚ
  anchor : Option String
  canonical_metric_id : String
  deriving DecidableEq

/-- A Python exception, by kind and message. -/
structure PyErr where
  kind : String
  msg : String
  deriving DecidableEq

/-! ## Metric extractor: `_find_numeric_in_row` -/

/-- Descending column order `ncols-1, …, 0`: the right-to-left scan of
`_find_numeric_in_row`. -/
def colsRightToLeft (g : Grid) : List Nat := (List.range (ncols g)).reverse

/-- The `nums` accumulation loop: collect `(value, column)` pairs,
breaking once two are found. -/
def scanNums (g : Grid) (r : Nat) : List Nat → List (ℚ × Nat) → List (ℚ × Nat)
  | [], acc => acc
  | c :: rest, acc =>
      if acc.length ≥ 2 then acc
      else
        match to_float (getCell g r c) with
        | none => scanNums g r rest acc
        | some v => scanNums g r rest (acc ++ [(v, c)])

/-- `_find_numeric_in_row`: `(curr, curr_col, prev, prev_col)` scanning
from the rightmost column leftward. -/
def find_numeric_in_row (g : Grid) (r : Nat) :
    Option ℚ × Option Nat × Option ℚ × Option Nat :=
  let nums := scanNums g r (colsRightToLeft g) []
  ((nums.get? 0).map Prod.fst, (nums.get? 0).map Prod.snd,
   (nums.get? 1).map Prod.fst, (nums.get? 1).map Prod.snd)

/-! ## Row locator: `_find_row` -/

/-- Scan order of the candidate label cells: every row top-to-bottom,
and within a row the left-most `min 6 ncols` columns left-to-right. -/
def candidates (g : Grid) : List (Nat × Nat) :=
  (List.range (nrows g)).flatMap
    (fun r => (List.range (min 6 (ncols g))).map (fun c => (r, c)))

/-- Faithful translation of `_find_row`.  The body normalises each
non-null candidate cell with `_norm_text`, a name that is not defined
anywhere in the sources, so evaluation raises `NameError` at the first
non-null candidate cell; if every candidate cell is null the loops
complete with `best = (-10^9, None)` and the function returns `None`. -/
def find_row (g : Grid) (_kws _forbid : List String) : Except PyErr (Option Nat) :=
  match (candidates g).find? (fun rc => !isNull (getCell g rc.1 rc.2)) with
  | some _ => .error ⟨"NameError", "name _norm_text is not defined"⟩
  | none => .ok none

/-- Modelled from the spec: the helper `_norm_text` used by `_find_row`
is missing from the sources; the spec says the locator "normalizes each
candidate string (strip whitespace, case-fold)", which coincides with
the engine's own `_norm`. -/
def norm_text (v : Cell) : String := norm (cellStr v)

/-- Base score of a normalised cell `s` against one normalised keyword
`k`: exact 100, prefix 90, substring 60, no match `none`. -/
def baseScore (s k : String) : Option Int :=
  if s = k then some 100
  else if strStarts s k then some 90
  else if strContains s k then some 60
  else none

/-- Number of forbidden tokens found in the normalised cell `s`
(each list entry counted once, as the source loop does). -/
def countForbid (forbid : List String) (s : String) : Nat :=
  (forbid.filter (fun fb => norm fb ≠ "" && strContains s (norm fb))).length

/-- The inner keyword loop of `_find_row`: `score_here` for one cell,
folding max over keywords, with the forbidden-token penalty applied to
each keyword's score as in the source. -/
def cell_score (g : Grid) (kws forbid : List String) (r c : Nat) : Option Int :=
  let v := getCell g r c
  if isNull v then none
  else
    let s := norm_text v
    if s = "" then none
    else
      kws.foldl
        (fun acc kw =>
          let k := norm kw
          if k = "" then acc
          else
            match baseScore s k with
            | none => acc
            | some b =>
                let sc := b - 40 * (countForbid forbid s : Int)
                match acc with
                | none => some sc
                | some a => some (max a sc))
        none

/-- The best-tracking step of `_find_row`'s outer loops. -/
def bestStep (score : Nat × Nat → Option Int) (best : Int × Option Nat)
    (rc : Nat × Nat) : Int × Option Nat :=
  match score rc with
  | none => best
  | some sc => if sc > best.1 then (sc, some rc.1) else best

/-- `_find_row` with the spec-modelled `norm_text`: fold the candidate
cells in scan order keeping the single best score, then apply the
acceptance threshold (`best row None or best score < 50` ⇒ `None`). -/
def find_rowM (g : Grid) (kws forbid : List String) : Option Nat :=
  let best := (candidates g).foldl (bestStep (fun rc => cell_score g kws forbid rc.1 rc.2))
    (-(10 ^ 9 : Int), none)
  if best.2 = none ∨ best.1 < 50 then none else best.2

/-- The claim's per-cell score: the best keyword base score, minus 40
for every forbidden token found in the same cell. -/
def scoreSpec (g : Grid) (kws forbid : List String) (r c : Nat) : Option Int :=
  let v := getCell g r c
  if isNull v then none
  else
    let s := norm_text v
    if s = "" then none
    else
      let best := (kws.filterMap (fun kw =>
        let k := norm kw
        if k = "" then none else baseScore s k)).foldl
          (fun acc b => match acc with
            | none => some b
            | some a => some (max a b)) none
      best.map (fun b => b - 40 * (countForbid forbid s : Int))

/-! ## Income-statement extraction: `_extract_is_metrics` -/

/-- `_IS_KEYS`, in the source's (insertion) order. -/
def IS_KEYS : List (String × List String) :=
  [("revenue", ["營業收入", "revenue", "total revenue", "net sales", "sales"]),
   ("gross_profit", ["營業毛利", "gross profit"]),
   ("opex", ["營業費用", "operating expense", "operating expenses", "opex"]),
   ("net_income", ["本期淨利", "net income", "稅後淨利", "net profit"]),
   ("gross_margin", ["毛利率", "gross margin", "gross profit margin"])]

/-- Split a character list on spaces. -/
def splitSpaces : List Char → List Char → List (List Char)
  | [], w => [w.reverse]
  | c :: rest, w =>
      if c = ' ' then w.reverse :: splitSpaces rest [] else splitSpaces rest (c :: w)

/-- Join word lists with single spaces. -/
def joinSpaces : List (List Char) → List Char
  | [] => []
  | [w] => w
  | w :: ws => w ++ ' ' :: joinSpaces ws

/-- `key.replace('_', ' ').title()` for the not-found placeholder label. -/
def titleLabel (key : String) : String :=
  ⟨joinSpaces ((splitSpaces (key.data.map (fun c => if c = '_' then ' ' else c)) []).map
    (fun w =>
      match w with
      | [] => []
      | ch :: rest => ch.toUpper :: rest.map Char.toLower))⟩

def labelEn (key : String) : String :=
  match key with
  | "revenue" => "Revenue"
  | "gross_profit" => "Gross Profit"
  | "opex" => "OPEX"
  | "net_income" => "Net Profit"
  | "gross_margin" => "Gross Margin %"
  | _ => key

def labelZh (key : String) : String :=
  match key with
  | "revenue" => "營收"
  | "gross_profit" => "毛利"
  | "opex" => "營業費用"
  | "net_income" => "淨利"
  | "gross_margin" => "毛利率%"
  | _ => key

/-- The sheet-choice loop: first name containing `TWN_IS` or equal to
`IS` or containing `損益`, else the first sheet.  (`none` only when
there are no sheets at all.) -/
def chooseIsSheet (sheets : List (String × Grid)) : Option String :=
  match sheets.find? (fun p =>
      strContains p.1 "TWN_IS" || p.1 == "IS" || strContains p.1 "損益") with
  | some p => some p.1
  | none => (sheets.head?).map Prod.fst

/-- One iteration of the per-key loop (shared by the faithful and the
modelled extraction): fold the located row (if any) into the
accumulated metrics / evidence / missing lists. -/
def isKeyStep (sheetName : String) (df : Grid)
    (acc : List Metric × List Evidence × List String)
    (kv : String × List String) (row : Option Nat) :
    List Metric × List Evidence × List String :=
  match row with
  | none =>
      (acc.1 ++ [⟨kv.1, titleLabel kv.1, kv.1, none, none, "", none⟩],
       acc.2.1,
       acc.2.2 ++ ["IS_ROW_MISSING::" ++ kv.1])
  | some r =>
      let q := find_numeric_in_row df r
      let anchor : Option String :=
        match q.2.1 with
        | some c => some (a1 sheetName r c)
        | none => none
      (acc.1 ++ [⟨kv.1, labelEn kv.1, labelZh kv.1, q.1, q.2.2.1,
                  (if kv.1 = "gross_margin" then "%" else "NTD"), anchor⟩],
       acc.2.1 ++ [{ metric := kv.1, sheet := some sheetName, anchor := anchor,
                     current := q.1, previous := q.2.2.1 }],
       acc.2.2)

/-- `next((m.value for m in metrics if m.key == k), None)`. -/
def metricValue (ms : List Metric) (k : String) : Option ℚ :=
  match ms.find? (fun m => m.key == k) with
  | some m => m.value
  | none => none

/-- The derived-OPEX block (`# Derived OPEX`, lines 404–412). -/
def derive_opex (t : List Metric × List Evidence × List String) :
    List Metric × List Evidence × List String :=
  let gp := metricValue t.1 "gross_profit"
  let oi := metricValue t.1 "opex"
  match gp, oi with
  | some a, some b =>
      (t.1 ++ [⟨"opex", "Operating Expense", "營業費用", some (a - b), none, "NTD", none⟩],
       t.2.1 ++ [{ metric := "opex", derived := some "gross_profit - opex",
                   current := some (a - b) }],
       t.2.2)
  | _, _ => (t.1, t.2.1, t.2.2 ++ ["DERIVE_OPEX_MISSING_INPUT"])

/-- Replace the first list element satisfying `p` (Python mutates the
object delivered by `next(...)`). -/
def updateFirst (p : Metric → Bool) (f : Metric → Metric) : List Metric → List Metric
  | [] => []
  | m :: rest => if p m then f m :: rest else m :: updateFirst p f rest

/-- The derived gross-margin block (lines 414–419): fill `gm.value` when
the margin is missing but revenue (truthy, hence non-zero) and gross
profit exist. -/
def derive_gm (t : List Metric × List Evidence × List String) :
    List Metric × List Evidence × List String :=
  let gm := t.1.find? (fun m => m.key == "gross_margin")
  let rev := metricValue t.1 "revenue"
  let gp := metricValue t.1 "gross_profit"
  match gm, rev, gp with
  | some g, some rv, some a =>
      if g.value = none ∧ rv ≠ 0 then
        let x := a / rv * 100
        (updateFirst (fun m => m.key == "gross_margin") (fun m => { m with value := some x }) t.1,
         t.2.1 ++ [{ metric := "gross_margin", derived := some "gross_profit / revenue",
                     current := some x }],
         t.2.2)
      else t
  | _, _, _ => t

/-- Faithful `_extract_is_metrics`: propagates the `NameError` that
`_find_row` raises (the exception escapes this function and is caught at
the `analyze_file` boundary). -/
def extract_is_metrics (sheets : List (String × Grid)) (_lang : String) :
    Except PyErr (List Metric × List Evidence × List String) :=
  match chooseIsSheet sheets with
  | none => .ok ([], [], ["NO_SHEETS"])
  | some name =>
      let df : Grid := ((sheets.find? (fun p => p.1 == name)).map Prod.snd).getD []
      do
        let res ← IS_KEYS.foldlM
          (fun acc kv => do
            let r ← find_row df kv.2 []
            pure (isKeyStep name df acc kv r))
          ([], [], [])
        pure (derive_gm (derive_opex res))

/-- `_extract_is_metrics` with the spec-modelled row locator
`find_rowM` in place of the faithful (raising) `_find_row`. -/
def extract_is_metricsM (sheets : List (String × Grid)) (_lang : String) :
    List Metric × List Evidence × List String :=
  match chooseIsSheet sheets with
  | none => ([], [], ["NO_SHEETS"])
  | some name =>
      let df : Grid := ((sheets.find? (fun p => p.1 == name)).map Prod.snd).getD []
      let res := IS_KEYS.foldl
        (fun acc kv => isKeyStep name df acc kv (find_rowM df kv.2 []))
        ([], [], [])
      derive_gm (derive_opex res)

/-! ## Cash-cycle scanner: `_scan_kpi_by_keywords`, `_extract_cash_cycle` -/

/-- `[a, a+1, …, b-1]`. -/
def rangeFromTo (a b : Nat) : List Nat :=
  (List.range (b - a)).map (fun i => a + i)

/-- Does the cell's normalised text contain any keyword variant? -/
def cellMatch (kws : List String) (v : Cell) : Bool :=
  !isNull v && kws.any (fun k => strContains (norm (cellStr v)) (norm k))

/-- Look right: first numeric among columns `c+1 … min(ncols, c+8) - 1`. -/
def look_right (g : Grid) (r c : Nat) : Option (ℚ × Nat) :=
  (rangeFromTo (c + 1) (min (ncols g) (c + 8))).findSome?
    (fun cc => (to_float (getCell g r cc)).map (fun v => (v, cc)))

/-- Look below: first numeric among rows `r+1 … min(nrows, r+8) - 1`. -/
def look_below (g : Grid) (r c : Nat) : Option (ℚ × Nat) :=
  (rangeFromTo (r + 1) (min (nrows g) (r + 8))).findSome?
    (fun rr => (to_float (getCell g rr c)).map (fun v => (v, rr)))

/-- Per-cell step of the scan: on a label match return the first numeric
found right-then-below (with its anchor); otherwise keep scanning. -/
def scan_cell (sheet : String) (g : Grid) (kws : List String) (r c : Nat) :
    Option (ℚ × String) :=
  if cellMatch kws (getCell g r c) then
    match look_right g r c with
    | some (v, cc) => some (v, a1 sheet r cc)
    | none =>
        match look_below g r c with
        | some (v, rr) => some (v, a1 sheet rr c)
        | none => none
  else none

/-- `_scan_kpi_by_keywords`: unscored full-grid search across all
sheets, first match (in sheet / row / column order) wins. -/
def scan_kpi_by_keywords (sheets : List (String × Grid)) (kws : List String) :
    Option ℚ × Option String :=
  match sheets.findSome? (fun p =>
      ((List.range (nrows p.2)).flatMap
        (fun r => (List.range (ncols p.2)).map (fun c => (r, c)))).findSome?
        (fun rc => scan_cell p.1 p.2 kws rc.1 rc.2)) with
  | some (v, anc) => (some v, some anc)
  | none => (none, none)

/-- The local `add` closure of `_extract_cash_cycle`. -/
def cashAdd (k : String) (va : Option ℚ × Option String)
    (em : List Evidence × List String) : List Evidence × List String :=
  match va.1 with
  | none => (em.1, em.2 ++ ["MISSING::" ++ k])
  | some v => (em.1 ++ [{ metric := k, anchor := va.2, current := some v }], em.2)

/-- `_extract_cash_cycle`. -/
def extract_cash_cycle (sheets : List (String × Grid)) :
    Cash × List Evidence × List String :=
  let d1 := scan_kpi_by_keywords sheets ["DSO", "應收天數", "應收帳款週轉天數"]
  let d2 := scan_kpi_by_keywords sheets ["DIO", "存貨天數", "存貨週轉天數"]
  let d3 := scan_kpi_by_keywords sheets ["DPO", "應付天數", "應付帳款週轉天數"]
  let d4 := scan_kpi_by_keywords sheets ["CCC", "現金週轉", "現金循環"]
  let em := cashAdd "CCC" d4 (cashAdd "DPO" d3 (cashAdd "DIO" d2 (cashAdd "DSO" d1 ([], []))))
  ({ dso := d1.1, dio := d2.1, dpo := d3.1, ccc := d4.1,
     a_dso := d1.2, a_dio := d2.2, a_dpo := d3.2, a_ccc := d4.2 },
   em.1, em.2)

/-! ## Period detection: `_detect_period` -/

def pad2 (n : Nat) : String := if n < 10 then "0" ++ toString n else toString n

/-- Try to match the period pattern — `20` then two digits, a dash or
slash, then one or two digits (greedy) — starting at the given suffix,
formatting a hit as `YYYY/MM`. -/
def periodAt : List Char → Option String
  | '2' :: '0' :: d1 :: d2 :: sep :: m1 :: rest =>
      if d1.isDigit && d2.isDigit && (sep = '-' || sep = '/') && m1.isDigit then
        let m :=
          match rest with
          | m2 :: _ =>
              if m2.isDigit then 10 * (m1.toNat - '0'.toNat) + (m2.toNat - '0'.toNat)
              else m1.toNat - '0'.toNat
          | [] => m1.toNat - '0'.toNat
        some (String.mk ['2', '0', d1, d2] ++ "/" ++ pad2 m)
      else none
  | _ => none

/-- `re.search` of the period pattern over one string. -/
def findPeriod (s : String) : Option String :=
  (List.range (s.data.length)).findSome? (fun i => periodAt (s.data.drop i))

/-- `_detect_period`: sheet names first, then the top-left 8×12 block of
each grid; display fallback `2017/08`. -/
def detect_period (sheets : List (String × Grid)) : String :=
  match sheets.findSome? (fun p =>
      match findPeriod p.1 with
      | some per => some per
      | none =>
          ((List.range (min 8 (nrows p.2))).flatMap
            (fun r => (List.range (min 12 (ncols p.2))).map (fun c => (r, c)))).findSome?
            (fun rc =>
              let v := getCell p.2 rc.1 rc.2
              if isNull v then none else findPeriod (cellStr v))) with
  | some per => per
  | none => "2017/08"

/-! ## Radar scorer: `_radar_library`, `_build_radar_signals` -/

structure Dim where
  dim_id : String
  display_en : String
  display_zh : String
  deriving DecidableEq

/-- `_radar_library`: the external dimension-library JSON
(`spec/v0.4.6/...`) is absent from this repository snapshot, so the
hard-coded eight-dimension fallback applies. -/
def radar_library : List Dim :=
  [⟨"D01", "Revenue Volatility", "營收波動"⟩,
   ⟨"D02", "Gross Margin Drift", "毛利率漂移"⟩,
   ⟨"D03", "OPEX Creep", "費用膨脹"⟩,
   ⟨"D04", "Operating Profit Stability", "營業費用穩定"⟩,
   ⟨"D05", "Cash Conversion Cycle", "CCC 現金循環"⟩,
   ⟨"D06", "Working Capital Stress", "營運資金壓力"⟩,
   ⟨"D07", "Customer Concentration", "客戶集中"⟩,
   ⟨"D08", "Inventory Risk", "存貨風險"⟩]

def dimLabel (lang : String) (d : Dim) : String :=
  if lang == "en" then d.display_en else d.display_zh

/-- `_default_radar`. -/
def default_radar (lang : String) : List Signal :=
  (radar_library.take 8).map (fun d => ⟨d.dim_id, dimLabel lang d, 5, 0.2, "fallback"⟩)

/-- `{m.key: m for m in metrics}` followed by `.get k`: the last metric
with the key wins. -/
def dict_last (ms : List Metric) (k : String) : Option Metric :=
  ms.foldl (fun acc m => if m.key == k then some m else acc) none

/-- `drift_score`: the threshold ladder on `|delta%|` with middle rung
`worse_if_abs_gt`, neutral `5.0 / 0.2` when there is no delta. -/
def drift_score (d : Option ℚ) (worse_if_abs_gt : ℚ) : ℚ × ℚ :=
  match d with
  | none => (5, 0.2)
  | some x =>
      let a := |x|
      if a ≥ 30 then (9, 0.8)
      else if a ≥ worse_if_abs_gt then (7.5, 0.7)
      else if a ≥ 5 then (6, 0.6)
      else (4, 0.6)

/-- `_build_radar_signals`: the eight `(score, confidence, evidence)`
triples in dimension order, zipped with the library. -/
def build_radar_signals (metrics : List Metric) (cash : Cash) (lang : String) :
    List Signal :=
  let lib := radar_library.take 8
  let rev := dict_last metrics "revenue"
  let gm := dict_last metrics "gross_margin"
  let oi := dict_last metrics "opex"
  let opex := dict_last metrics "opex"
  let e1 := let p := drift_score (rev.bind Metric.delta_pct) 10; (p.1, p.2, "rev.delta")
  let e2 := let p := drift_score (gm.bind Metric.delta_pct) 3; (p.1, p.2, "gm.delta")
  let e3 :=
    match opex, rev with
    | some mo, some mr =>
        match mo.value, mr.value with
        | some ov, some rv =>
            if rv ≠ 0 then
              let ratio := ov / |rv|
              ((if ratio ≥ 0.35 then (7.5 : ℚ) else if ratio ≥ 0.25 then 6.5 else 4.5),
               (0.6 : ℚ), "opex/rev")
            else (5, 0.2, "missing")
        | _, _ => (5, 0.2, "missing")
    | _, _ => (5, 0.2, "missing")
  let e4 := let p := drift_score (oi.bind Metric.delta_pct) 10; (p.1, p.2, "oi.delta")
  let e5 :=
    match cash.ccc with
    | none => ((5 : ℚ), (0.2 : ℚ), "missing")
    | some c => ((if c ≤ 60 then (4 : ℚ) else if c ≤ 120 then 6.5 else 8.5), 0.6, "ccc.level")
  let e6 :=
    match cash.dso with
    | none => ((5 : ℚ), (0.2 : ℚ), "missing")
    | some d => ((if d ≤ 45 then (4 : ℚ) else if d ≤ 75 then 6.5 else 8.5), 0.6, "dso.level")
  let e7 := ((5 : ℚ), (0.2 : ℚ), "not_available")
  let e8 := ((5 : ℚ), (0.2 : ℚ), "not_available")
  (lib.zip [e1, e2, e3, e4, e5, e6, e7, e8]).map
    (fun de => ⟨de.1.dim_id, dimLabel lang de.1, de.2.1, de.2.2.1, de.2.2.2⟩)

/-! ## KPI payload (`analyze_file` lines 743–766) -/

/-- The front-end KPI entry for one metric: `delta_pct` is the metric's
percent delta divided by 100, i.e. a fraction. -/
def kpiOf (lang : String) (unit : String) (m : Metric) : Kpi :=
  { label := if lang == "en" then m.label_en else m.label_zh,
    value := m.value,
    unit := unit,
    delta_pct := (m.delta_pct).map (fun dp => dp / 100),
    anchor := m.anchor,
    canonical_metric_id := m.key }

/-- The KPI loop of `analyze_file`. -/
def build_kpis (lang : String) (metrics : List Metric) : List Kpi :=
  metrics.flatMap (fun m =>
    if m.key ∈ ["gross_margin"] then [kpiOf lang "%" m]
    else if m.key ∈ ["revenue", "gross_profit", "opex", "net_income"] then
      [kpiOf lang "NTD" m]
    else [])

/-! ## `analyze_file` -/

structure Filters where
  cycle : String
  terms : String
  mode : String
  hold : String
  deriving DecidableEq

structure CacheAnn where
  hit : Bool
  age_s : ℚ
  deriving DecidableEq

/-- The Analysis Result (rendered HTML cards / narrative strings are
presentation-only projections of these fields and are not modelled). -/
structure Result where
  ok : Bool
  status : String
  period : String
  filters : Filters
  file_id : String
  sheet_names : List String
  kpis : List Kpi
  cash_cycle : Cash
  radar_signals : List Signal
  evidence_ledger : List Evidence
  mapping_backlog : List Gap
  sys_cache : Option CacheAnn := none
  deriving DecidableEq

/-- The `except` branch of `analyze_file`: a DEGRADED but schema-valid
result.  The modelled failure point (`_find_row`'s `NameError`) occurs
before any backlog entry or ledger entry is accumulated, so at the catch
site the backlog holds only the new `SYSTEM_ERROR` entry. -/
def degraded_result (file_id : String) (sheets : List (String × Grid))
    (lang cycle terms mode hold : String) (e : PyErr) : Result :=
  { ok := true,
    status := "DEGRADED",
    period := "—",
    filters := ⟨cycle, terms, mode, hold⟩,
    file_id := file_id,
    sheet_names := sheets.map Prod.fst,
    kpis := [],
    cash_cycle := {},
    radar_signals := default_radar lang,
    evidence_ledger := [],
    mapping_backlog := [{ type := "SYSTEM_ERROR", code := e.kind, detail := some e.msg }],
    sys_cache := none }

/-- The body of `analyze_file`'s `try` block, from the extraction
outputs onward (shared by the faithful entry point and the
spec-modelled one). -/
def assemble_result (file_id : String) (sheets : List (String × Grid))
    (lang cycle terms mode hold : String)
    (ext : List Metric × List Evidence × List String) : Result :=
  let cashT := extract_cash_cycle sheets
  let backlog : List Gap :=
    (ext.2.2 ++ cashT.2.2).map (fun c => { type := "MAPPING_GAP", code := c })
  let ledger := ext.2.1 ++ cashT.2.1
  { ok := true,
    status := if backlog.isEmpty then "OK" else "PARTIAL",
    period := detect_period sheets,
    filters := ⟨cycle, terms, mode, hold⟩,
    file_id := file_id,
    sheet_names := sheets.map Prod.fst,
    kpis := build_kpis lang ext.1,
    cash_cycle := cashT.1,
    radar_signals := build_radar_signals ext.1 cashT.1 lang,
    evidence_ledger := ledger,
    mapping_backlog := backlog,
    sys_cache := none }

/-- `analyze_file`, faithful: the workbook is presented as its parsed
sheets (`_read_all_sheets` is local file I/O that itself never raises,
returning `{}` when parsing fails) together with the file's stem.  The
`try/except` boundary converts any internal failure into a DEGRADED
result; the embedded failure source is `_find_row`'s `NameError`. -/
def analyze_file (sheets : List (String × Grid)) (file_id : String)
    (lang _prompt cycle terms mode hold : String) : Result :=
  match extract_is_metrics sheets lang with
  | .error e => degraded_result file_id sheets lang cycle terms mode hold e
  | .ok ext => assemble_result file_id sheets lang cycle terms mode hold ext

/-! ## Deterministic cache: `analyze_file_cached`

The process-wide `_ANALYSIS_CACHE` dict becomes explicit state.  A
workbook file is presented as its identity fingerprint (resolved path,
mtime, size), its stem, and its parsed sheets; `time.time()` is an
explicit `now` argument.  The 12-hex-digit SHA-1 prefix of the prompt is
modelled by the prompt string itself (both are deterministic functions
of the prompt; hash collisions are not modelled).  Python's `deepcopy`
is value semantics here.  `file_path.stat()` is modelled as total, so
the `except` fallback arm of the source (stat failure) is unreachable
and not modelled. -/

structure FileRec where
  path : String
  mtime_ns : Int
  size : Int
  stem : String
  sheets : List (String × Grid)

/-- The cache key tuple. -/
structure CKey where
  path : String
  lang : String
  cycle : String
  terms : String
  mode : String
  hold : String
  ph : String
  mtime_ns : Int
  size : Int
  deriving DecidableEq

/-- A cache entry: `{"ts": ..., "data": ...}`. -/
structure CEntry where
  ts : ℚ
  data : Result

abbrev CacheState := List (CKey × CEntry)

def mkKey (f : FileRec) (lang prompt cycle terms mode hold : String) : CKey :=
  ⟨f.path, lang, cycle, terms, mode, hold, prompt, f.mtime_ns, f.size⟩

def cacheLookup (cache : CacheState) (k : CKey) : Option CEntry :=
  (cache.find? (fun p => p.1 == k)).map Prod.snd

/-- Dict insert/overwrite.  (Python keeps an overwritten key's original
position; only the eviction order depends on position, which no claim
observes, so overwrite-as-append is used.) -/
def cacheInsert (cache : CacheState) (k : CKey) (e : CEntry) : CacheState :=
  cache.filter (fun p => p.1 ≠ k) ++ [(k, e)]

/-- The first entry with the minimal timestamp (dict iteration order). -/
def oldestKey (cache : CacheState) : Option CKey :=
  (cache.foldl (fun acc p =>
    match acc with
    | none => some p
    | some q => if p.2.ts < q.2.ts then some p else some q) none).map Prod.fst

/-- The prune-oldest step, applied on a miss when the bound (8) is
reached. -/
def cachePrune (cache : CacheState) : CacheState :=
  if cache.length ≥ 8 then
    match oldestKey cache with
    | some k => cache.filter (fun p => p.1 ≠ k)
    | none => cache
  else cache

def CACHE_TTL_S : ℚ := 30 * 60

/-- `round(x, 2)` (the half-to-even nuance of Python's `round` is not
observed by any claim and is modelled as floor-based rounding). -/
def round2 (x : ℚ) : ℚ := (⌊x * 100 + 1 / 2⌋ : ℚ) / 100

/-- `analyze_file_cached`: TTL-fresh hit returns a deep copy of the
stored result annotated `hit=True` with its age; otherwise compute,
prune, store the pristine copy, and return the result annotated
`hit=False`. -/
def analyze_file_cached (cache : CacheState) (now : ℚ) (f : FileRec)
    (lang prompt cycle terms mode hold : String) : Result × CacheState :=
  let key := mkKey f lang prompt cycle terms mode hold
  let compute : Result × CacheState :=
    let out := analyze_file f.sheets f.stem lang prompt cycle terms mode hold
    let cache' := cacheInsert (cachePrune cache) key ⟨now, out⟩
    ({ out with sys_cache := some ⟨false, 0⟩ }, cache')
  match cacheLookup cache key with
  | some ent =>
      if now - ent.ts < CACHE_TTL_S then
        ({ ent.data with sys_cache := some ⟨true, round2 (now - ent.ts)⟩ }, cache)
      else compute
  | none => compute

/-- Erase the injected `system.cache` annotation, leaving every other
field of the result. -/
def stripCache (r : Result) : Result := { r with sys_cache := none }

/-- The cache-content invariant the process-wide dict maintains for a
given key: any entry stored under it is the pristine engine output for
that file and parameter set. -/
def validCacheFor (cache : CacheState) (f : FileRec)
    (lang prompt cycle terms mode hold : String) : Prop :=
  ∀ ent, cacheLookup cache (mkKey f lang prompt cycle terms mode hold) = some ent →
    ent.data = analyze_file f.sheets f.stem lang prompt cycle terms mode hold

/-! ## Helper lemmas -/

lemma analyze_sys_cache_none (sheets : List (String × Grid))
    (file_id lang prompt cycle terms mode hold : String) :
    (analyze_file sheets file_id lang prompt cycle terms mode hold).sys_cache = none := by
  unfold analyze_file
  cases extract_is_metrics sheets lang <;> rfl

lemma stripCache_set (r : Result) (a : Option CacheAnn) :
    stripCache { r with sys_cache := a } = stripCache r := rfl

lemma stripCache_status (r : Result) : (stripCache r).status = r.status := rfl

lemma cacheLookup_insert (c : CacheState) (k : CKey) (e : CEntry) :
    cacheLookup (cacheInsert c k e) k = some e := by
  unfold cacheLookup cacheInsert
  rw [List.find?_append]
  have h1 : (c.filter (fun p => p.1 ≠ k)).find? (fun p => p.1 == k) = none := by
    rw [List.find?_eq_none]
    intro p hp
    have := (List.mem_filter.mp hp).2
    simp only [decide_eq_true_eq] at this
    simp [this]
  simp [h1]

lemma cached_fst_strip (cache : CacheState) (now : ℚ) (f : FileRec)
    (lang prompt cycle terms mode hold : String)
    (hv : validCacheFor cache f lang prompt cycle terms mode hold) :
    stripCache (analyze_file_cached cache now f lang prompt cycle terms mode hold).1 =
      stripCache (analyze_file f.sheets f.stem lang prompt cycle terms mode hold) := by
  cases hl : cacheLookup cache (mkKey f lang prompt cycle terms mode hold) with
  | none => simp only [analyze_file_cached, hl]; rfl
  | some ent =>
      have hd := hv ent hl
      simp only [analyze_file_cached, hl]
      split
      · simp [stripCache, hd]
      · rfl

lemma cached_snd_valid (cache : CacheState) (now : ℚ) (f : FileRec)
    (lang prompt cycle terms mode hold : String)
    (hv : validCacheFor cache f lang prompt cycle terms mode hold) :
    validCacheFor (analyze_file_cached cache now f lang prompt cycle terms mode hold).2
      f lang prompt cycle terms mode hold := by
  intro ent h
  cases hl : cacheLookup cache (mkKey f lang prompt cycle terms mode hold) with
  | none =>
      simp only [analyze_file_cached, hl, cacheLookup_insert] at h
      cases h
      rfl
  | some ent0 =>
      simp only [analyze_file_cached, hl] at h
      split at h
      · exact hv ent h
      · simp only [cacheLookup_insert] at h
        cases h
        rfl

lemma analyze_status_cases (sheets : List (String × Grid))
    (file_id lang prompt cycle terms mode hold : String) :
    (analyze_file sheets file_id lang prompt cycle terms mode hold).status = "OK" ∨
    (analyze_file sheets file_id lang prompt cycle terms mode hold).status = "PARTIAL" ∨
    (analyze_file sheets file_id lang prompt cycle terms mode hold).status = "DEGRADED" := by
  unfold analyze_file
  cases extract_is_metrics sheets lang with
  | error e => right; right; rfl
  | ok ext =>
      unfold assemble_result
      simp only []
      split
      · left; rfl
      · right; left; rfl

lemma metric_delta_div100 (m : Metric) :
    (m.delta_pct).map (fun dp => dp / 100) =
      (match m.value, m.prev with
       | some v, some p => if p = 0 then none else some ((v - p) / |p|)
       | _, _ => none) := by
  unfold Metric.delta_pct
  cases m.value with
  | none => rfl
  | some v =>
      cases m.prev with
      | none => rfl
      | some p =>
          by_cases hp : p = 0
          · simp [hp]
          · simp only [if_neg hp, Option.map]
            congr 1
            rw [mul_div_assoc]
            norm_num

lemma build_kpis_mem {lang : String} {ms : List Metric} {k : Kpi}
    (h : k ∈ build_kpis lang ms) :
    ∃ m ∈ ms, k = kpiOf lang "%" m ∨ k = kpiOf lang "NTD" m := by
  unfold build_kpis at h
  rw [List.mem_flatMap] at h
  obtain ⟨m, hm, hk⟩ := h
  refine ⟨m, hm, ?_⟩
  split at hk
  · simp at hk; exact Or.inl hk
  · split at hk
    · simp at hk; exact Or.inr hk
    · simp at hk

/-! ## Claim theorems -/

/-- C10.  When the sheet reader yields no sheets, `analyze_file` returns
a `PARTIAL` — not `DEGRADED` — result whose backlog is exactly the
`NO_SHEETS` mapping gap plus the four `MISSING::` cash-cycle gaps, with
an empty KPI list and no `SYSTEM_ERROR` entry. -/
theorem analyze_no_sheets_claim (file_id lang prompt cycle terms mode hold : String) :
    (analyze_file [] file_id lang prompt cycle terms mode hold).status = "PARTIAL" ∧
    (analyze_file [] file_id lang prompt cycle terms mode hold).mapping_backlog =
      [⟨"MAPPING_GAP", "NO_SHEETS", none, "OPEN"⟩,
       ⟨"MAPPING_GAP", "MISSING::DSO", none, "OPEN"⟩,
       ⟨"MAPPING_GAP", "MISSING::DIO", none, "OPEN"⟩,
       ⟨"MAPPING_GAP", "MISSING::DPO", none, "OPEN"⟩,
       ⟨"MAPPING_GAP", "MISSING::CCC", none, "OPEN"⟩] ∧
    (analyze_file [] file_id lang prompt cycle terms mode hold).kpis = [] ∧
    ∀ b ∈ (analyze_file [] file_id lang prompt cycle terms mode hold).mapping_backlog,
      b.type = "MAPPING_GAP" := by
  refine ⟨rfl, rfl, rfl, ?_⟩
  intro b hb
  simp only [show (analyze_file [] file_id lang prompt cycle terms mode hold).mapping_backlog =
      [⟨"MAPPING_GAP", "NO_SHEETS", none, "OPEN"⟩,
       ⟨"MAPPING_GAP", "MISSING::DSO", none, "OPEN"⟩,
       ⟨"MAPPING_GAP", "MISSING::DIO", none, "OPEN"⟩,
       ⟨"MAPPING_GAP", "MISSING::DPO", none, "OPEN"⟩,
       ⟨"MAPPING_GAP", "MISSING::CCC", none, "OPEN"⟩] from rfl, List.mem_cons,
    List.mem_singleton] at hb
  rcases hb with rfl | rfl | rfl | rfl | rfl | h
  · rfl
  · rfl
  · rfl
  · rfl
  · rfl
  · cases h

/-- Witness for C10: the `NO_SHEETS` entry of the empty-workbook result
is typed `MAPPING_GAP` (in particular it is not a `SYSTEM_ERROR`). -/
theorem analyze_no_sheets_witness :
    (Gap.mk "MAPPING_GAP" "NO_SHEETS" none "OPEN").type = "MAPPING_GAP" :=
  (analyze_no_sheets_claim "f" "en" "" "MOM" "AUTO" "AUTO" "OFF").2.2.2
    (Gap.mk "MAPPING_GAP" "NO_SHEETS" none "OPEN") (by decide)

/-- C1.  An analysis call never raises: the returned status is always
one of `OK`, `PARTIAL`, `DEGRADED`; an internal failure (the embedded
failure source is the `NameError` raised inside `_find_row`) is
converted into a `DEGRADED` result whose backlog carries a
`SYSTEM_ERROR` entry with the exception kind and message; the cached
wrapper returns a result with the same status. -/
theorem analyze_never_raises_claim :
    (∀ (sheets : List (String × Grid)) (file_id lang prompt cycle terms mode hold : String),
      ((analyze_file sheets file_id lang prompt cycle terms mode hold).status = "OK" ∨
       (analyze_file sheets file_id lang prompt cycle terms mode hold).status = "PARTIAL" ∨
       (analyze_file sheets file_id lang prompt cycle terms mode hold).status = "DEGRADED") ∧
      (∀ e, extract_is_metrics sheets lang = .error e →
        (analyze_file sheets file_id lang prompt cycle terms mode hold).status = "DEGRADED" ∧
        ({ type := "SYSTEM_ERROR", code := e.kind, detail := some e.msg } : Gap) ∈
          (analyze_file sheets file_id lang prompt cycle terms mode hold).mapping_backlog)) ∧
    (∀ (cache : CacheState) (now : ℚ) (f : FileRec)
        (lang prompt cycle terms mode hold : String),
      validCacheFor cache f lang prompt cycle terms mode hold →
      ((analyze_file_cached cache now f lang prompt cycle terms mode hold).1.status = "OK" ∨
       (analyze_file_cached cache now f lang prompt cycle terms mode hold).1.status = "PARTIAL" ∨
       (analyze_file_cached cache now f lang prompt cycle terms mode hold).1.status = "DEGRADED")) := by
  constructor
  · intro sheets file_id lang prompt cycle terms mode hold
    refine ⟨analyze_status_cases sheets file_id lang prompt cycle terms mode hold, ?_⟩
    intro e he
    unfold analyze_file
    rw [he]
    exact ⟨rfl, by simp [degraded_result]⟩
  · intro cache now f lang prompt cycle terms mode hold hv
    have h := cached_fst_strip cache now f lang prompt cycle terms mode hold hv
    have hs : (analyze_file_cached cache now f lang prompt cycle terms mode hold).1.status =
        (analyze_file f.sheets f.stem lang prompt cycle terms mode hold).status := by
      rw [← stripCache_status, h, stripCache_status]
    rw [hs]
    exact analyze_status_cases f.sheets f.stem lang prompt cycle terms mode hold

/-- Witness for C1 at a concrete workbook: a single sheet with one text
cell makes the extraction pipeline fail (the undefined `_norm_text`),
and the call still returns, with status `DEGRADED` and the
`SYSTEM_ERROR::NameError` backlog entry; the cached wrapper on an empty
cache returns one of the three statuses. -/
theorem analyze_never_raises_witness :
    ((analyze_file [("S", [[Cell.str "x"]])] "f" "en" "" "MOM" "AUTO" "AUTO" "OFF").status =
        "DEGRADED" ∧
      ({ type := "SYSTEM_ERROR", code := "NameError",
         detail := some "name _norm_text is not defined" } : Gap) ∈
        (analyze_file [("S", [[Cell.str "x"]])] "f" "en" "" "MOM" "AUTO" "AUTO" "OFF").mapping_backlog) ∧
    ((analyze_file_cached [] 0 ⟨"p", 0, 0, "f", [("S", [[Cell.str "x"]])]⟩
        "en" "" "MOM" "AUTO" "AUTO" "OFF").1.status = "OK" ∨
     (analyze_file_cached [] 0 ⟨"p", 0, 0, "f", [("S", [[Cell.str "x"]])]⟩
        "en" "" "MOM" "AUTO" "AUTO" "OFF").1.status = "PARTIAL" ∨
     (analyze_file_cached [] 0 ⟨"p", 0, 0, "f", [("S", [[Cell.str "x"]])]⟩
        "en" "" "MOM" "AUTO" "AUTO" "OFF").1.status = "DEGRADED") := by
  constructor
  · exact (analyze_never_raises_claim.1 [("S", [[Cell.str "x"]])] "f" "en" "" "MOM" "AUTO"
      "AUTO" "OFF").2 ⟨"NameError", "name _norm_text is not defined"⟩ rfl
  · exact analyze_never_raises_claim.2 [] 0 ⟨"p", 0, 0, "f", [("S", [[Cell.str "x"]])]⟩
      "en" "" "MOM" "AUTO" "AUTO" "OFF" (by intro ent h; simp [cacheLookup] at h)

/-- C5.  The Derivation Resolver: when both gross profit and operating
income are present among the extracted metrics it appends a derived
operating-expense metric whose value is exactly `gross_profit − oi`
together with an Evidence Entry carrying the formula tag
`gross_profit - opex` and no anchor, and no gap; when either input is
missing it appends the `DERIVE_OPEX_MISSING_INPUT` gap and leaves the
metrics (hence every value) unchanged — never defaulting to zero. -/
theorem derive_opex_claim :
    (∀ (ms : List Metric) (ev : List Evidence) (miss : List String) (a b : ℚ),
      metricValue ms "gross_profit" = some a → metricValue ms "opex" = some b →
      (derive_opex (ms, ev, miss)).1 =
        ms ++ [⟨"opex", "Operating Expense", "營業費用", some (a - b), none, "NTD", none⟩] ∧
      (derive_opex (ms, ev, miss)).2.1 =
        ev ++ [{ metric := "opex", anchor := none, derived := some "gross_profit - opex",
                 current := some (a - b) }] ∧
      (derive_opex (ms, ev, miss)).2.2 = miss) ∧
    (∀ (ms : List Metric) (ev : List Evidence) (miss : List String),
      metricValue ms "gross_profit" = none ∨ metricValue ms "opex" = none →
      (derive_opex (ms, ev, miss)).1 = ms ∧
      (derive_opex (ms, ev, miss)).2.1 = ev ∧
      (derive_opex (ms, ev, miss)).2.2 = miss ++ ["DERIVE_OPEX_MISSING_INPUT"]) := by
  constructor
  · intro ms ev miss a b ha hb
    unfold derive_opex
    rw [ha, hb]
    exact ⟨rfl, rfl, rfl⟩
  · intro ms ev miss h
    unfold derive_opex
    rcases h with h | h
    · rw [h]
      cases metricValue ms "opex" <;> exact ⟨rfl, rfl, rfl⟩
    · rw [h]
      cases metricValue ms "gross_profit" <;> exact ⟨rfl, rfl, rfl⟩

/-- Witness for C5 on concrete metric lists: with gross profit 10 and
operating income 4 the derived OPEX is 6 with the formula-tagged
evidence entry; with the opex row missing the gap is appended. -/
theorem derive_opex_witness :
    ((derive_opex ([⟨"gross_profit", "Gross Profit", "毛利", some 10, none, "NTD", none⟩,
                    ⟨"opex", "OPEX", "營業費用", some 4, none, "NTD", none⟩], [], [])).1 =
      [⟨"gross_profit", "Gross Profit", "毛利", some 10, none, "NTD", none⟩,
       ⟨"opex", "OPEX", "營業費用", some 4, none, "NTD", none⟩,
       ⟨"opex", "Operating Expense", "營業費用", some 6, none, "NTD", none⟩] ∧
     (derive_opex ([⟨"gross_profit", "Gross Profit", "毛利", some 10, none, "NTD", none⟩,
                    ⟨"opex", "OPEX", "營業費用", some 4, none, "NTD", none⟩], [], [])).2.1 =
      [{ metric := "opex", anchor := none, derived := some "gross_profit - opex",
         current := some 6 }] ∧
     (derive_opex ([⟨"gross_profit", "Gross Profit", "毛利", some 10, none, "NTD", none⟩,
                    ⟨"opex", "OPEX", "營業費用", some 4, none, "NTD", none⟩], [], [])).2.2 = []) ∧
    (derive_opex ([⟨"gross_profit", "Gross Profit", "毛利", some 10, none, "NTD", none⟩], [],
      [])).2.2 = ["DERIVE_OPEX_MISSING_INPUT"] := by
  constructor
  · have h := derive_opex_claim.1
      [⟨"gross_profit", "Gross Profit", "毛利", some 10, none, "NTD", none⟩,
       ⟨"opex", "OPEX", "營業費用", some 4, none, "NTD", none⟩] [] [] 10 4 rfl rfl
    refine ⟨?_, ?_, h.2.2⟩
    · rw [h.1]; norm_num
    · rw [h.2.1]; norm_num
  · exact (derive_opex_claim.2
      [⟨"gross_profit", "Gross Profit", "毛利", some 10, none, "NTD", none⟩] [] []
      (Or.inr rfl)).2.2

/-- C7.  Every KPI entry in an analysis result is built from an
extracted metric, and its `delta_pct` field is a fraction: exactly
`(current − previous) / |previous|` when both are present and the
previous value is non-zero, and absent otherwise. -/
theorem kpis_delta_pct_fraction_claim
    (sheets : List (String × Grid)) (file_id lang prompt cycle terms mode hold : String) :
    ∀ k ∈ (analyze_file sheets file_id lang prompt cycle terms mode hold).kpis,
      ∃ ms ev miss, extract_is_metrics sheets lang = .ok (ms, ev, miss) ∧
      ∃ m ∈ ms, k.canonical_metric_id = m.key ∧ k.value = m.value ∧ k.anchor = m.anchor ∧
        k.delta_pct = (match m.value, m.prev with
          | some v, some p => if p = 0 then none else some ((v - p) / |p|)
          | _, _ => none) := by
  intro k hk
  unfold analyze_file at hk
  cases h : extract_is_metrics sheets lang with
  | error e => rw [h] at hk; simp [degraded_result] at hk
  | ok ext =>
      obtain ⟨ms, ev, miss⟩ := ext
      rw [h] at hk
      have hk' : k ∈ build_kpis lang ms := hk
      obtain ⟨m, hm, hor⟩ := build_kpis_mem hk'
      refine ⟨ms, ev, miss, rfl, m, hm, ?_⟩
      have hdelta := metric_delta_div100 m
      rcases hor with rfl | rfl <;>
        exact ⟨rfl, rfl, rfl, hdelta⟩

/-- Witness for C7: a workbook whose label columns are all blank (so
row location returns no row before ever touching `_norm_text`) yields a
placeholder revenue KPI whose `delta_pct` is absent. -/
theorem kpis_delta_pct_fraction_witness :
    ∃ ms ev miss,
      extract_is_metrics [("S", [[Cell.empty, Cell.empty, Cell.empty, Cell.empty,
        Cell.empty, Cell.empty, Cell.num 5]])] "en" = .ok (ms, ev, miss) ∧
      ∃ m ∈ ms,
        (kpiOf "en" "NTD" ⟨"revenue", "Revenue", "營收", none, none, "", none⟩).canonical_metric_id
            = m.key ∧
        (kpiOf "en" "NTD" ⟨"revenue", "Revenue", "營收", none, none, "", none⟩).value = m.value ∧
        (kpiOf "en" "NTD" ⟨"revenue", "Revenue", "營收", none, none, "", none⟩).anchor = m.anchor ∧
        (kpiOf "en" "NTD" ⟨"revenue", "Revenue", "營收", none, none, "", none⟩).delta_pct =
          (match m.value, m.prev with
           | some v, some p => if p = 0 then none else some ((v - p) / |p|)
           | _, _ => none) := by
  have h := kpis_delta_pct_fraction_claim
    [("S", [[Cell.empty, Cell.empty, Cell.empty, Cell.empty, Cell.empty, Cell.empty,
      Cell.num 5]])] "f" "en" "" "MOM" "AUTO" "AUTO" "OFF"
    (kpiOf "en" "NTD" ⟨"revenue", "Revenue", "營收", none, none, "", none⟩) (by decide)
  obtain ⟨ms, ev, miss, hok, m, hm, rest⟩ := h
  exact ⟨ms, ev, miss, hok, m, hm, rest⟩

/-- C6.  Cache idempotence: with an unchanged file (same path, content,
mtime, size, hence same key) and identical parameters, two consecutive
`analyze_file_cached` calls agree on every field except the
`system.cache` annotation; and each agrees, up to that annotation, with
the uncached `analyze_file`. -/
theorem cache_idempotence_claim (cache : CacheState) (now1 now2 : ℚ) (f : FileRec)
    (lang prompt cycle terms mode hold : String)
    (hv : validCacheFor cache f lang prompt cycle terms mode hold) :
    stripCache (analyze_file_cached cache now1 f lang prompt cycle terms mode hold).1 =
      stripCache (analyze_file_cached
        (analyze_file_cached cache now1 f lang prompt cycle terms mode hold).2
        now2 f lang prompt cycle terms mode hold).1 ∧
    stripCache (analyze_file_cached cache now1 f lang prompt cycle terms mode hold).1 =
      stripCache (analyze_file f.sheets f.stem lang prompt cycle terms mode hold) := by
  have h1 := cached_fst_strip cache now1 f lang prompt cycle terms mode hold hv
  have h2 := cached_fst_strip
    (analyze_file_cached cache now1 f lang prompt cycle terms mode hold).2
    now2 f lang prompt cycle terms mode hold
    (cached_snd_valid cache now1 f lang prompt cycle terms mode hold hv)
  exact ⟨h1.trans h2.symm, h1⟩

/-- Witness for C6: an empty workbook, an empty initial cache, calls at
times 0 and 1 — the miss then the fresh hit agree with each other and
with the uncached engine. -/
theorem cache_idempotence_witness :
    stripCache (analyze_file_cached [] 0 ⟨"p", 7, 9, "f", []⟩ "en" "" "MOM" "AUTO" "AUTO"
        "OFF").1 =
      stripCache (analyze_file_cached
        (analyze_file_cached [] 0 ⟨"p", 7, 9, "f", []⟩ "en" "" "MOM" "AUTO" "AUTO" "OFF").2
        1 ⟨"p", 7, 9, "f", []⟩ "en" "" "MOM" "AUTO" "AUTO" "OFF").1 ∧
    stripCache (analyze_file_cached [] 0 ⟨"p", 7, 9, "f", []⟩ "en" "" "MOM" "AUTO" "AUTO"
        "OFF").1 =
      stripCache (analyze_file [] "f" "en" "" "MOM" "AUTO" "AUTO" "OFF") := by
  exact cache_idempotence_claim [] 0 1 ⟨"p", 7, 9, "f", []⟩ "en" "" "MOM" "AUTO" "AUTO" "OFF"
    (by intro ent h; simp [cacheLookup] at h)

/-! ## Right-to-left scan lemmas (Metric Extractor) -/

lemma le_foldr_max (l : List Nat) (x : Nat) (h : x ∈ l) : x ≤ l.foldr max 0 := by
  induction l with
  | nil => cases h
  | cons a t ih =>
      rcases List.mem_cons.mp h with rfl | h'
      · exact le_max_left _ _
      · exact le_trans (ih h') (le_max_right _ _)

lemma getCell_of_ncols_le (g : Grid) (r c : Nat) (h : ncols g ≤ c) :
    getCell g r c = Cell.empty := by
  unfold getCell
  cases hr : g.get? r with
  | none => rfl
  | some row =>
      have hm : row.length ∈ g.map List.length := List.mem_map_of_mem _ (List.get?_mem hr)
      have hlen : row.length ≤ ncols g := le_foldr_max _ _ hm
      have hnone : row.get? c = none := List.get?_eq_none.mpr (le_trans hlen h)
      rw [List.get?_eq_getElem?] at hnone
      simp [hnone]

/-- The per-column probe of the right-to-left scan. -/
def fNum (g : Grid) (r c : Nat) : Option (ℚ × Nat) :=
  (to_float (getCell g r c)).map (fun v => (v, c))

lemma reverse_range_succ (n : Nat) :
    (List.range (n + 1)).reverse = n :: (List.range n).reverse := by
  rw [List.range_succ, List.reverse_append]
  rfl

lemma firstNum_desc (g : Grid) (r : Nat) :
    ∀ (n : Nat) (v : ℚ) (c : Nat),
      (((List.range n).reverse.filterMap (fNum g r)).get? 0) = some (v, c) →
      to_float (getCell g r c) = some v ∧ c < n ∧
        ∀ c', c < c' → c' < n → to_float (getCell g r c') = none := by
  intro n
  induction n with
  | zero => intro v c h; simp at h
  | succ n ih =>
      intro v c h
      rw [reverse_range_succ, List.filterMap_cons] at h
      cases hf : to_float (getCell g r n) with
      | none =>
          rw [show fNum g r n = none by simp [fNum, hf]] at h
          obtain ⟨h1, h2, h3⟩ := ih v c h
          refine ⟨h1, Nat.lt_succ_of_lt h2, ?_⟩
          intro c' hcc hcn
          rcases Nat.lt_succ_iff_lt_or_eq.mp hcn with h' | rfl
          · exact h3 c' hcc h'
          · exact hf
      | some v0 =>
          rw [show fNum g r n = some (v0, n) by simp [fNum, hf]] at h
          simp only [List.get?] at h
          cases h
          exact ⟨hf, Nat.lt_succ_self n, fun c' h1 h2 => absurd (Nat.lt_of_lt_of_le h2 h1) (by omega)⟩

lemma secondNum_desc (g : Grid) (r : Nat) :
    ∀ (n : Nat) (v2 : ℚ) (c2 : Nat),
      (((List.range n).reverse.filterMap (fNum g r)).get? 1) = some (v2, c2) →
      ∃ v1 c1, (((List.range n).reverse.filterMap (fNum g r)).get? 0) = some (v1, c1) ∧
        c2 < c1 ∧ to_float (getCell g r c2) = some v2 ∧
        ∀ c', c2 < c' → c' < c1 → to_float (getCell g r c') = none := by
  intro n
  induction n with
  | zero => intro v2 c2 h; simp at h
  | succ n ih =>
      intro v2 c2 h
      rw [reverse_range_succ, List.filterMap_cons] at h
      cases hf : to_float (getCell g r n) with
      | none =>
          rw [show fNum g r n = none by simp [fNum, hf]] at h
          obtain ⟨v1, c1, h0, hlt, hv2, hmid⟩ := ih v2 c2 h
          refine ⟨v1, c1, ?_, hlt, hv2, hmid⟩
          rw [reverse_range_succ, List.filterMap_cons,
            show fNum g r n = none by simp [fNum, hf]]
          exact h0
      | some v0 =>
          rw [show fNum g r n = some (v0, n) by simp [fNum, hf]] at h
          simp only [List.get?] at h
          obtain ⟨hv2, hc2, hmid⟩ := firstNum_desc g r n v2 c2 h
          refine ⟨v0, n, ?_, hc2, hv2, hmid⟩
          rw [reverse_range_succ, List.filterMap_cons,
            show fNum g r n = some (v0, n) by simp [fNum, hf]]
          rfl

lemma noneNum_desc (g : Grid) (r : Nat) :
    ∀ (n : Nat), (((List.range n).reverse.filterMap (fNum g r)).get? 0) = none →
      ∀ c, c < n → to_float (getCell g r c) = none := by
  intro n
  induction n with
  | zero => intro h c hc; omega
  | succ n ih =>
      intro h c hc
      rw [reverse_range_succ, List.filterMap_cons] at h
      cases hf : to_float (getCell g r n) with
      | none =>
          rw [show fNum g r n = none by simp [fNum, hf]] at h
          rcases Nat.lt_succ_iff_lt_or_eq.mp hc with h' | rfl
          · exact ih h c h'
          · exact hf
      | some v0 =>
          rw [show fNum g r n = some (v0, n) by simp [fNum, hf]] at h
          simp at h

lemma scanNums_eq (g : Grid) (r : Nat) :
    ∀ (cs : List Nat) (acc : List (ℚ × Nat)),
      scanNums g r cs acc =
        if acc.length ≥ 2 then acc
        else acc ++ (cs.filterMap (fNum g r)).take (2 - acc.length) := by
  intro cs
  induction cs with
  | nil =>
      intro acc
      simp only [scanNums, List.filterMap_nil, List.take_nil, List.append_nil]
      split <;> rfl
  | cons c rest ih =>
      intro acc
      simp only [scanNums]
      by_cases hlen : acc.length ≥ 2
      · rw [if_pos hlen, if_pos hlen]
      · rw [if_neg hlen, if_neg hlen, List.filterMap_cons]
        cases hf : to_float (getCell g r c) with
        | none =>
            rw [show fNum g r c = none by simp [fNum, hf]]
            dsimp only
            rw [ih acc, if_neg hlen]
        | some v =>
            rw [show fNum g r c = some (v, c) by simp [fNum, hf]]
            dsimp only
            rw [ih (acc ++ [(v, c)])]
            have hc : acc.length = 0 ∨ acc.length = 1 := by omega
            rcases hc with h0 | h1
            · have : ¬((acc ++ [(v, c)]).length ≥ 2) := by simp [h0]
              rw [if_neg this]
              simp [h0, List.take_succ_cons]
            · have : (acc ++ [(v, c)]).length ≥ 2 := by simp [h1]
              rw [if_pos this]
              simp [h1, List.take_succ_cons]

lemma find_numeric_as_take (g : Grid) (r : Nat) :
    find_numeric_in_row g r =
      (((((List.range (ncols g)).reverse.filterMap (fNum g r)).take 2).get? 0).map Prod.fst,
       ((((List.range (ncols g)).reverse.filterMap (fNum g r)).take 2).get? 0).map Prod.snd,
       ((((List.range (ncols g)).reverse.filterMap (fNum g r)).take 2).get? 1).map Prod.fst,
       ((((List.range (ncols g)).reverse.filterMap (fNum g r)).take 2).get? 1).map Prod.snd) := by
  unfold find_numeric_in_row colsRightToLeft
  rw [scanNums_eq]
  simp only [List.length_nil, ge_iff_le, Nat.le_zero, OfNat.ofNat_ne_zero, if_false,
    List.nil_append, Nat.sub_zero]

lemma find_numeric_get (g : Grid) (r i : Nat) (hi : i < 2) :
    ((((List.range (ncols g)).reverse.filterMap (fNum g r)).take 2).get? i) =
      (((List.range (ncols g)).reverse.filterMap (fNum g r)).get? i) :=
  List.get?_take hi

/-- C3.  The Metric Extractor scans a located row from the rightmost
column leftward, skipping empty / non-numeric cells (unparsable text is
absent, not zero): the current value sits at the rightmost numeric
column, the previous value at the next numeric column to its left, and
with fewer than two numeric values the previous value and column are
absent — a normal outcome, not an error.  In particular the row
`["Revenue", "", 1000, 1200]` yields current 1200 at column 3, previous
1000 at column 2, and the anchor computed for the current cell is
`S!D1`, the 1200 cell's coordinate. -/
theorem metric_extractor_claim :
    (∀ (g : Grid) (r c1 : Nat), (find_numeric_in_row g r).2.1 = some c1 →
      (find_numeric_in_row g r).1 = to_float (getCell g r c1) ∧
      (to_float (getCell g r c1)).isSome = true ∧
      ∀ c', c1 < c' → to_float (getCell g r c') = none) ∧
    (∀ (g : Grid) (r c2 : Nat), (find_numeric_in_row g r).2.2.2 = some c2 →
      (find_numeric_in_row g r).2.2.1 = to_float (getCell g r c2) ∧
      (to_float (getCell g r c2)).isSome = true ∧
      ∃ c1, (find_numeric_in_row g r).2.1 = some c1 ∧ c2 < c1 ∧
        ∀ c', c2 < c' → c' < c1 → to_float (getCell g r c') = none) ∧
    (∀ (g : Grid) (r : Nat), (find_numeric_in_row g r).2.1 = none →
      ∀ c, to_float (getCell g r c) = none) ∧
    (∀ (g : Grid) (r : Nat),
      ((List.range (ncols g)).filter
        (fun c => (to_float (getCell g r c)).isSome)).length < 2 →
      (find_numeric_in_row g r).2.2.1 = none ∧ (find_numeric_in_row g r).2.2.2 = none) ∧
    to_float (Cell.str "Revenue") = none ∧
    find_numeric_in_row [[Cell.str "Revenue", Cell.str "", Cell.num 1000, Cell.num 1200]] 0 =
      (some 1200, some 3, some 1000, some 2) ∧
    a1 "S" 0 3 = "S!D1" ∧
    ((extract_is_metricsM
        [("S", [[Cell.str "Revenue", Cell.str "", Cell.num 1000, Cell.num 1200]])] "en").1.find?
      (fun m => m.key == "revenue")) =
      some ⟨"revenue", "Revenue", "營收", some 1200, some 1000, "NTD", some "S!D1"⟩ := by
  refine ⟨?_, ?_, ?_, ?_, by decide, by decide, by decide, by decide⟩
  · intro g r c1 h
    rw [find_numeric_as_take, find_numeric_get g r 0 (by omega)] at h
    obtain ⟨⟨v, c⟩, hp, hsnd⟩ := Option.map_eq_some'.mp h
    simp only at hsnd
    subst hsnd
    obtain ⟨h1, _h2, h3⟩ := firstNum_desc g r (ncols g) v c hp
    refine ⟨?_, by rw [h1]; rfl, ?_⟩
    · rw [find_numeric_as_take]
      simp only
      rw [find_numeric_get g r 0 (by omega), hp, h1]
      rfl
    · intro c' hc'
      by_cases hcn : c' < ncols g
      · exact h3 c' hc' hcn
      · rw [getCell_of_ncols_le g r c' (by omega)]
        rfl
  · intro g r c2 h
    rw [find_numeric_as_take, find_numeric_get g r 1 (by omega)] at h
    obtain ⟨⟨v, c⟩, hp, hsnd⟩ := Option.map_eq_some'.mp h
    simp only at hsnd
    subst hsnd
    obtain ⟨v1, c1, h0, hlt, hv2, hmid⟩ := secondNum_desc g r (ncols g) v c hp
    refine ⟨?_, by rw [hv2]; rfl, c1, ?_, hlt, hmid⟩
    · rw [find_numeric_as_take]
      simp only
      rw [find_numeric_get g r 1 (by omega), hp, hv2]
      rfl
    · rw [find_numeric_as_take]
      simp only
      rw [find_numeric_get g r 0 (by omega), h0]
      rfl
  · intro g r h c
    rw [find_numeric_as_take, find_numeric_get g r 0 (by omega)] at h
    simp only [Option.map_eq_none'] at h
    by_cases hcn : c < ncols g
    · exact noneNum_desc g r (ncols g) h c hcn
    · rw [getCell_of_ncols_le g r c (by omega)]
      rfl
  · intro g r hcount
    cases h1 : (((List.range (ncols g)).reverse.filterMap (fNum g r)).get? 1) with
    | none =>
        rw [find_numeric_as_take]
        simp only
        rw [find_numeric_get g r 1 (by omega), h1]
        exact ⟨rfl, rfl⟩
    | some p =>
        obtain ⟨v2, c2⟩ := p
        obtain ⟨v1, c1, h0, hlt, hv2, _⟩ := secondNum_desc g r (ncols g) v2 c2 h1
        obtain ⟨hv1, hc1, _⟩ := firstNum_desc g r (ncols g) v1 c1 h0
        have hc2 : c2 < ncols g := lt_trans hlt hc1
        have hm1 : c1 ∈ (List.range (ncols g)).filter
            (fun c => (to_float (getCell g r c)).isSome) :=
          List.mem_filter.mpr ⟨List.mem_range.mpr hc1, by rw [hv1]; rfl⟩
        have hm2 : c2 ∈ (List.range (ncols g)).filter
            (fun c => (to_float (getCell g r c)).isSome) :=
          List.mem_filter.mpr ⟨List.mem_range.mpr hc2, by rw [hv2]; rfl⟩
        have hne : c1 ≠ c2 := fun he => absurd he.symm (Nat.ne_of_lt hlt)
        have hsub : ({c1, c2} : Finset ℕ) ⊆ ((List.range (ncols g)).filter
            (fun c => (to_float (getCell g r c)).isSome)).toFinset := by
          intro x hx
          rcases Finset.mem_insert.mp hx with rfl | hx'
          · exact List.mem_toFinset.mpr hm1
          · rw [Finset.mem_singleton] at hx'
            subst hx'
            exact List.mem_toFinset.mpr hm2
        have h2le : 2 ≤ ((List.range (ncols g)).filter
            (fun c => (to_float (getCell g r c)).isSome)).length := by
          calc 2 = ({c1, c2} : Finset ℕ).card := (Finset.card_pair hne).symm
            _ ≤ _ := Finset.card_le_card hsub
            _ ≤ _ := List.toFinset_card_le _
        omega

/-- Witness for C3 on the spec's scenario row: the located-row scan of
`["Revenue", "", 1000, 1200]` has its current column at 3, and the
theorem instantiates to: the current value is the cell value there, it
is numeric, and every column to its right is non-numeric. -/
theorem metric_extractor_witness :
    (find_numeric_in_row [[Cell.str "Revenue", Cell.str "", Cell.num 1000, Cell.num 1200]] 0).1 =
      to_float (getCell [[Cell.str "Revenue", Cell.str "", Cell.num 1000, Cell.num 1200]] 0 3) ∧
    (to_float (getCell [[Cell.str "Revenue", Cell.str "", Cell.num 1000, Cell.num 1200]] 0 3)).isSome
      = true ∧
    ∀ c', 3 < c' →
      to_float (getCell [[Cell.str "Revenue", Cell.str "", Cell.num 1000, Cell.num 1200]] 0 c')
        = none :=
  metric_extractor_claim.1 [[Cell.str "Revenue", Cell.str "", Cell.num 1000, Cell.num 1200]] 0 3
    (by decide)

/-! ## Cash-cycle scanner lemmas -/

lemma findSome?_some {α β : Type _} {l : List α} {f : α → Option β} {b : β}
    (h : l.findSome? f = some b) : ∃ a ∈ l, f a = some b := by
  obtain ⟨l1, a, l2, h1, h2, _⟩ := List.findSome?_eq_some_iff.mp h
  exact ⟨a, by rw [h1]; exact List.mem_append_right _ (List.mem_cons_self _ _), h2⟩

lemma mem_rangeFromTo {a b x : Nat} : x ∈ rangeFromTo a b ↔ a ≤ x ∧ x < b := by
  unfold rangeFromTo
  simp only [List.mem_map, List.mem_range]
  constructor
  · rintro ⟨i, hi, rfl⟩
    omega
  · intro h
    exact ⟨x - a, by omega, by omega⟩

lemma scan_cell_sound {sheet : String} {g : Grid} {kws : List String} {r c : Nat}
    {v : ℚ} {anc : String} (h : scan_cell sheet g kws r c = some (v, anc)) :
    cellMatch kws (getCell g r c) = true ∧
    ((∃ cc, c + 1 ≤ cc ∧ cc < min (ncols g) (c + 8) ∧
        to_float (getCell g r cc) = some v ∧ anc = a1 sheet r cc) ∨
     (look_right g r c = none ∧ ∃ rr, r + 1 ≤ rr ∧ rr < min (nrows g) (r + 8) ∧
        to_float (getCell g rr c) = some v ∧ anc = a1 sheet rr c)) := by
  unfold scan_cell at h
  split at h
  case isFalse => cases h
  case isTrue hm =>
    refine ⟨hm, ?_⟩
    cases hlr : look_right g r c with
    | some p =>
        obtain ⟨v0, cc⟩ := p
        rw [hlr] at h
        simp only [Option.some.injEq, Prod.mk.injEq] at h
        obtain ⟨rfl, rfl⟩ := h
        left
        unfold look_right at hlr
        obtain ⟨cc', hmem, hf⟩ := findSome?_some hlr
        obtain ⟨v', hv', heq⟩ := Option.map_eq_some'.mp hf
        simp only [Prod.mk.injEq] at heq
        obtain ⟨rfl, rfl⟩ := heq
        obtain ⟨hge, hlt⟩ := mem_rangeFromTo.mp hmem
        exact ⟨cc', hge, hlt, hv', rfl⟩
    | none =>
        rw [hlr] at h
        cases hlb : look_below g r c with
        | none => rw [hlb] at h; cases h
        | some p =>
            obtain ⟨v0, rr⟩ := p
            rw [hlb] at h
            simp only [Option.some.injEq, Prod.mk.injEq] at h
            obtain ⟨rfl, rfl⟩ := h
            right
            refine ⟨hlr ▸ rfl, ?_⟩
            unfold look_below at hlb
            obtain ⟨rr', hmem, hf⟩ := findSome?_some hlb
            obtain ⟨v', hv', heq⟩ := Option.map_eq_some'.mp hf
            simp only [Prod.mk.injEq] at heq
            obtain ⟨rfl, rfl⟩ := heq
            obtain ⟨hge, hlt⟩ := mem_rangeFromTo.mp hmem
            exact ⟨rr', hge, hlt, hv', rfl⟩

/-- C4 counterexample.  A grid whose `DSO` label has its figure in the
8th cell to the right (column 8, label at column 0): the scan does not
find it — the right-window loop `range(c+1, min(ncols, c+8))` inspects
only the 7 cells `c+1 … c+7` — and, with no other match, returns
`(None, None)`, contradicting the claimed 8-cell search. -/
theorem cash_scan_eighth_cell_counterexample :
    scan_kpi_by_keywords
      [("S", [[Cell.str "DSO", Cell.empty, Cell.empty, Cell.empty, Cell.empty, Cell.empty,
        Cell.empty, Cell.empty, Cell.num 42]])] ["DSO"] = (none, none) ∧
    cellMatch ["DSO"]
      (getCell [[Cell.str "DSO", Cell.empty, Cell.empty, Cell.empty, Cell.empty, Cell.empty,
        Cell.empty, Cell.empty, Cell.num 42]] 0 0) = true ∧
    to_float (getCell [[Cell.str "DSO", Cell.empty, Cell.empty, Cell.empty, Cell.empty,
      Cell.empty, Cell.empty, Cell.empty, Cell.num 42]] 0 8) = some 42 ∧
    0 + 8 < ncols [[Cell.str "DSO", Cell.empty, Cell.empty, Cell.empty, Cell.empty, Cell.empty,
      Cell.empty, Cell.empty, Cell.num 42]] := by
  refine ⟨by decide, by decide, by decide, by decide⟩

/-- C4 (amended: the windows span 7 cells, `c+1 … c+7` right and
`r+1 … r+7` below).  The Cash-Cycle Scanner is an unscored full-grid
search over all sheets: any value it returns comes from a label-matching
cell's right window (or, when the right window has no numeric, its
below window), anchored at the value's cell; it returns a paired
`(value, anchor)` or `(None, None)`; a label match with no numeric in
either window (and no other match) yields `(None, None)` without
raising, as on the single-cell `DSO` grid; and a figure in the 7th cell
right of the label is found. -/
theorem cash_scan_window_claim (sheets : List (String × Grid)) (kws : List String) :
    (((scan_kpi_by_keywords sheets kws).1 = none ∧
        (scan_kpi_by_keywords sheets kws).2 = none) ∨
      (∃ v a, scan_kpi_by_keywords sheets kws = (some v, some a))) ∧
    (∀ (v : ℚ) (anc : String), scan_kpi_by_keywords sheets kws = (some v, some anc) →
      ∃ sh g r c, (sh, g) ∈ sheets ∧ cellMatch kws (getCell g r c) = true ∧
        ((∃ cc, c + 1 ≤ cc ∧ cc < min (ncols g) (c + 8) ∧
            to_float (getCell g r cc) = some v ∧ anc = a1 sh r cc) ∨
         (look_right g r c = none ∧ ∃ rr, r + 1 ≤ rr ∧ rr < min (nrows g) (r + 8) ∧
            to_float (getCell g rr c) = some v ∧ anc = a1 sh rr c))) ∧
    scan_kpi_by_keywords [("S", [[Cell.str "DSO"]])] ["DSO"] = (none, none) ∧
    cellMatch ["DSO"] (getCell [[Cell.str "DSO"]] 0 0) = true ∧
    scan_kpi_by_keywords [("S", [[Cell.str "DSO", Cell.empty, Cell.empty, Cell.empty,
      Cell.empty, Cell.empty, Cell.empty, Cell.num 33]])] ["DSO"] =
      (some 33, some "S!H1") := by
  refine ⟨?_, ?_, by decide, by decide, by decide⟩
  · unfold scan_kpi_by_keywords
    cases h : sheets.findSome? (fun p =>
        ((List.range (nrows p.2)).flatMap
          (fun r => (List.range (ncols p.2)).map (fun c => (r, c)))).findSome?
          (fun rc => scan_cell p.1 p.2 kws rc.1 rc.2)) with
    | none => left; exact ⟨rfl, rfl⟩
    | some p => right; exact ⟨p.1, p.2, rfl⟩
  · intro v anc h
    unfold scan_kpi_by_keywords at h
    cases hs : sheets.findSome? (fun p =>
        ((List.range (nrows p.2)).flatMap
          (fun r => (List.range (ncols p.2)).map (fun c => (r, c)))).findSome?
          (fun rc => scan_cell p.1 p.2 kws rc.1 rc.2)) with
    | none => rw [hs] at h; cases h
    | some p0 =>
        rw [hs] at h
        obtain ⟨v0, a0⟩ := p0
        simp only [Prod.mk.injEq, Option.some.injEq] at h
        obtain ⟨rfl, rfl⟩ := h
        obtain ⟨sg, hsg, hf⟩ := findSome?_some hs
        obtain ⟨rc, _hrc, hcell⟩ := findSome?_some hf
        obtain ⟨hm, hwin⟩ := scan_cell_sound hcell
        exact ⟨sg.1, sg.2, rc.1, rc.2, hsg, hm, hwin⟩

/-- Witness for C4's amended theorem: on the grid whose `DSO` figure 33
sits exactly 7 cells right of the label, the scan's result `(33, S!H1)`
is certified to come from a matching cell's 7-cell window. -/
theorem cash_scan_window_witness :
    ∃ sh g r c,
      (sh, g) ∈ [("S", [[Cell.str "DSO", Cell.empty, Cell.empty, Cell.empty, Cell.empty,
        Cell.empty, Cell.empty, Cell.num 33]])] ∧
      cellMatch ["DSO"] (getCell g r c) = true ∧
      ((∃ cc, c + 1 ≤ cc ∧ cc < min (ncols g) (c + 8) ∧
          to_float (getCell g r cc) = some 33 ∧ "S!H1" = a1 sh r cc) ∨
       (look_right g r c = none ∧ ∃ rr, r + 1 ≤ rr ∧ rr < min (nrows g) (r + 8) ∧
          to_float (getCell g rr c) = some 33 ∧ "S!H1" = a1 sh rr c)) :=
  (cash_scan_window_claim [("S", [[Cell.str "DSO", Cell.empty, Cell.empty, Cell.empty,
    Cell.empty, Cell.empty, Cell.empty, Cell.num 33]])] ["DSO"]).2.1 33 "S!H1" (by decide)

/-! ## Radar lemmas -/

lemma drift_score_bounds (d : Option ℚ) (w : ℚ) :
    0 ≤ (drift_score d w).1 ∧ (drift_score d w).1 ≤ 10 ∧
    0 ≤ (drift_score d w).2 ∧ (drift_score d w).2 ≤ 1 := by
  unfold drift_score
  cases d with
  | none => norm_num
  | some x =>
      dsimp only
      split_ifs <;> norm_num

/-- C8 counterexample.  A gross-margin metric whose delta is +4%: the
claimed uniform ladder (middle rung `|delta%| ≥ 10`) scores it
4.0 / 0.6, but the engine's gross-margin dimension uses middle rung 3
(`drift_score(..., worse_if_abs_gt=3.0)`) and returns 7.5 / 0.7. -/
theorem radar_gm_ladder_counterexample :
    (Metric.delta_pct ⟨"gross_margin", "Gross Margin %", "毛利率%", some 104, some 100, "%",
      none⟩) = some 4 ∧
    drift_score (some 4) 10 = (4, 0.6) ∧
    ((build_radar_signals
        [⟨"gross_margin", "Gross Margin %", "毛利率%", some 104, some 100, "%", none⟩]
        {} "en").get? 1).map (fun s => (s.score, s.confidence)) = some (7.5, 0.7) ∧
    (7.5 : ℚ) ≠ 4 := by
  have hd : (Metric.delta_pct ⟨"gross_margin", "Gross Margin %", "毛利率%", some 104, some 100,
      "%", none⟩) = some 4 := by
    unfold Metric.delta_pct
    norm_num
  have hbind : (dict_last [⟨"gross_margin", "Gross Margin %", "毛利率%", some 104, some 100,
      "%", none⟩] "gross_margin").bind Metric.delta_pct = some 4 := by
    rw [show dict_last [(⟨"gross_margin", "Gross Margin %", "毛利率%", some 104, some 100,
      "%", none⟩ : Metric)] "gross_margin" =
        some ⟨"gross_margin", "Gross Margin %", "毛利率%", some 104, some 100, "%", none⟩
      from rfl, Option.some_bind]
    exact hd
  have hds : drift_score (some 4) 3 = (7.5, 0.7) := by
    unfold drift_score
    norm_num
  refine ⟨hd, ?_, ?_, by norm_num⟩
  · unfold drift_score
    norm_num
  · rw [show ((build_radar_signals
        [⟨"gross_margin", "Gross Margin %", "毛利率%", some 104, some 100, "%", none⟩]
        {} "en").get? 1) =
      some ⟨"D02", "Gross Margin Drift",
        (drift_score ((dict_last [⟨"gross_margin", "Gross Margin %", "毛利率%", some 104,
          some 100, "%", none⟩] "gross_margin").bind Metric.delta_pct) 3).1,
        (drift_score ((dict_last [⟨"gross_margin", "Gross Margin %", "毛利率%", some 104,
          some 100, "%", none⟩] "gross_margin").bind Metric.delta_pct) 3).2,
        "gm.delta"⟩ from rfl, hbind, hds]
    rfl

/-- C8 (amended: the threshold ladder's middle rung is 10 for the
revenue-volatility and operating-profit dimensions but 3 for the
gross-margin-drift dimension).  The Radar Scorer returns exactly 8
signals; every score lies in [0,10] and every confidence in [0,1];
D01/D02/D04 are the drift ladder applied to the respective metric's
delta (neutral 5.0/0.2 when the delta is missing, since
`drift_score(None) = (5, 0.2)`); D05/D06 are neutral 5.0/0.2 when CCC /
DSO are missing; and D07/D08 are always the neutral placeholders —
all computed deterministically from the already-extracted values. -/
theorem radar_signals_claim (ms : List Metric) (cash : Cash) (lang : String) :
    (build_radar_signals ms cash lang).length = 8 ∧
    (∀ s ∈ build_radar_signals ms cash lang,
      0 ≤ s.score ∧ s.score ≤ 10 ∧ 0 ≤ s.confidence ∧ s.confidence ≤ 1) ∧
    ((build_radar_signals ms cash lang).get? 0).map (fun s => (s.score, s.confidence)) =
      some (drift_score ((dict_last ms "revenue").bind Metric.delta_pct) 10) ∧
    ((build_radar_signals ms cash lang).get? 1).map (fun s => (s.score, s.confidence)) =
      some (drift_score ((dict_last ms "gross_margin").bind Metric.delta_pct) 3) ∧
    ((build_radar_signals ms cash lang).get? 3).map (fun s => (s.score, s.confidence)) =
      some (drift_score ((dict_last ms "opex").bind Metric.delta_pct) 10) ∧
    (cash.ccc = none →
      ((build_radar_signals ms cash lang).get? 4).map (fun s => (s.score, s.confidence)) =
        some (5, 0.2)) ∧
    (cash.dso = none →
      ((build_radar_signals ms cash lang).get? 5).map (fun s => (s.score, s.confidence)) =
        some (5, 0.2)) ∧
    ((build_radar_signals ms cash lang).get? 6).map
        (fun s => (s.score, s.confidence, s.evidence)) = some (5, 0.2, "not_available") ∧
    ((build_radar_signals ms cash lang).get? 7).map
        (fun s => (s.score, s.confidence, s.evidence)) = some (5, 0.2, "not_available") := by
  refine ⟨rfl, ?_, rfl, rfl, rfl, ?_, ?_, rfl, rfl⟩
  · intro s hs
    simp only [build_radar_signals, radar_library, List.take, List.zip_cons_cons,
      List.zip_nil_right, List.map_cons, List.map_nil, List.mem_cons, List.not_mem_nil,
      or_false] at hs
    rcases hs with rfl | rfl | rfl | rfl | rfl | rfl | rfl | rfl
    · exact drift_score_bounds _ 10
    · exact drift_score_bounds _ 3
    · rcases dict_last ms "opex" with _ | mo <;> rcases dict_last ms "revenue" with _ | mr <;>
        simp only []
      · norm_num
      · norm_num
      · norm_num
      · rcases mo.value with _ | ov <;> rcases mr.value with _ | rv <;> simp only []
        · norm_num
        · norm_num
        · norm_num
        · split_ifs <;> norm_num
    · exact drift_score_bounds _ 10
    · rcases cash.ccc with _ | c <;> simp only []
      · norm_num
      · split_ifs <;> norm_num
    · rcases cash.dso with _ | d <;> simp only []
      · norm_num
      · split_ifs <;> norm_num
    · norm_num
    · norm_num
  · intro h
    simp only [build_radar_signals, radar_library, List.take, h]
    rfl
  · intro h
    simp only [build_radar_signals, radar_library, List.take, h]
    rfl

/-- Witness for C8 on empty inputs: all deltas missing and no cash
figures, hence eight neutral-or-drift signals whose bounds and neutral
positions the amended theorem certifies. -/
theorem radar_signals_witness :
    (0 ≤ (Signal.mk "D07" "Customer Concentration" 5 0.2 "not_available").score ∧
      (Signal.mk "D07" "Customer Concentration" 5 0.2 "not_available").score ≤ 10 ∧
      0 ≤ (Signal.mk "D07" "Customer Concentration" 5 0.2 "not_available").confidence ∧
      (Signal.mk "D07" "Customer Concentration" 5 0.2 "not_available").confidence ≤ 1) ∧
    (((build_radar_signals [] {} "en").get? 4).map (fun s => (s.score, s.confidence)) =
      some (5, 0.2)) := by
  constructor
  · exact (radar_signals_claim [] {} "en").2.1
      (Signal.mk "D07" "Customer Concentration" 5 0.2 "not_available")
      (.tail _ (.tail _ (.tail _ (.tail _ (.tail _ (.tail _ (.head _)))))))
  · exact (radar_signals_claim [] {} "en").2.2.2.2.2.1 rfl

/-! ## Evidence-ledger invariant lemmas -/

/-- The two-part ledger invariant carried through the extraction
pipeline: every populated metric has a matching evidence entry, and
every populated evidence entry has an anchor or a derivation tag. -/
def LedgerInv (t : List Metric × List Evidence × List String) : Prop :=
  (∀ m ∈ t.1, m.value.isSome = true →
    ∃ e ∈ t.2.1, e.metric = m.key ∧ e.current = m.value) ∧
  (∀ e ∈ t.2.1, e.current.isSome = true →
    e.anchor.isSome = true ∨ e.derived.isSome = true)

lemma find_numeric_fst_snd (g : Grid) (r : Nat) :
    ((find_numeric_in_row g r).1).isSome = ((find_numeric_in_row g r).2.1).isSome := by
  unfold find_numeric_in_row
  dsimp only
  cases (scanNums g r (colsRightToLeft g) []).get? 0 <;> rfl

lemma isKeyStep_inv {name : String} {df : Grid}
    {acc : List Metric × List Evidence × List String} {kv : String × List String}
    {row : Option Nat} (h : LedgerInv acc) : LedgerInv (isKeyStep name df acc kv row) := by
  obtain ⟨h1, h2⟩ := h
  cases row with
  | none =>
      refine ⟨?_, h2⟩
      intro m hm hv
      rcases List.mem_append.mp hm with hm' | hm'
      · obtain ⟨e, he, hp⟩ := h1 m hm' hv
        exact ⟨e, he, hp⟩
      · simp only [List.mem_singleton] at hm'
        subst hm'
        simp at hv
  | some r =>
      constructor
      · intro m hm hv
        rcases List.mem_append.mp hm with hm' | hm'
        · obtain ⟨e, he, hp⟩ := h1 m hm' hv
          exact ⟨e, List.mem_append_left _ he, hp⟩
        · simp only [List.mem_singleton] at hm'
          subst hm'
          refine ⟨_, List.mem_append_right _ (List.mem_singleton_self _), rfl, rfl⟩
      · intro e he hv
        rcases List.mem_append.mp he with he' | he'
        · exact h2 e he' hv
        · simp only [List.mem_singleton] at he'
          subst he'
          left
          simp only at hv
          have := find_numeric_fst_snd df r
          rw [hv] at this
          cases hc : (find_numeric_in_row df r).2.1 with
          | none => rw [hc] at this; cases this
          | some c => simp [hc]

lemma foldl_isKeyStep_inv (name : String) (df : Grid)
    (keys : List (String × List String)) :
    ∀ acc, LedgerInv acc →
      LedgerInv (keys.foldl
        (fun acc kv => isKeyStep name df acc kv (find_rowM df kv.2 [])) acc) := by
  induction keys with
  | nil => intro acc h; exact h
  | cons kv rest ih =>
      intro acc h
      exact ih _ (isKeyStep_inv h)

lemma derive_opex_inv {t : List Metric × List Evidence × List String}
    (h : LedgerInv t) : LedgerInv (derive_opex t) := by
  obtain ⟨h1, h2⟩ := h
  unfold derive_opex
  cases hg : metricValue t.1 "gross_profit" with
  | none => exact ⟨h1, h2⟩
  | some a =>
      cases ho : metricValue t.1 "opex" with
      | none => exact ⟨h1, h2⟩
      | some b =>
          constructor
          · intro m hm hv
            rcases List.mem_append.mp hm with hm' | hm'
            · obtain ⟨e, he, hp⟩ := h1 m hm' hv
              exact ⟨e, List.mem_append_left _ he, hp⟩
            · simp only [List.mem_singleton] at hm'
              subst hm'
              exact ⟨_, List.mem_append_right _ (List.mem_singleton_self _), rfl, rfl⟩
          · intro e he hv
            rcases List.mem_append.mp he with he' | he'
            · exact h2 e he' hv
            · simp only [List.mem_singleton] at he'
              subst he'
              right
              rfl

lemma updateFirst_mem {p : Metric → Bool} {f : Metric → Metric} {l : List Metric}
    {m : Metric} (h : m ∈ updateFirst p f l) :
    m ∈ l ∨ ∃ m0 ∈ l, p m0 = true ∧ m = f m0 := by
  induction l with
  | nil => cases h
  | cons a rest ih =>
      unfold updateFirst at h
      by_cases hp : p a
      · rw [if_pos hp] at h
        rcases List.mem_cons.mp h with rfl | h'
        · exact Or.inr ⟨a, List.mem_cons_self _ _, hp, rfl⟩
        · exact Or.inl (List.mem_cons_of_mem _ h')
      · rw [if_neg hp] at h
        rcases List.mem_cons.mp h with rfl | h'
        · exact Or.inl (List.mem_cons_self _ _)
        · rcases ih h' with h'' | ⟨m0, hm0, hpm, hf⟩
          · exact Or.inl (List.mem_cons_of_mem _ h'')
          · exact Or.inr ⟨m0, List.mem_cons_of_mem _ hm0, hpm, hf⟩

lemma derive_gm_inv {t : List Metric × List Evidence × List String}
    (h : LedgerInv t) : LedgerInv (derive_gm t) := by
  obtain ⟨h1, h2⟩ := h
  unfold derive_gm
  cases hgm : t.1.find? (fun m => m.key == "gross_margin") with
  | none => exact ⟨h1, h2⟩
  | some g0 =>
      cases hrev : metricValue t.1 "revenue" with
      | none => exact ⟨h1, h2⟩
      | some rv =>
          cases hgp : metricValue t.1 "gross_profit" with
          | none => exact ⟨h1, h2⟩
          | some a =>
              dsimp only
              split
              · constructor
                · intro m hm hv
                  rcases updateFirst_mem hm with hm' | ⟨m0, hm0, hpm, rfl⟩
                  · obtain ⟨e, he, hp⟩ := h1 m hm' hv
                    exact ⟨e, List.mem_append_left _ he, hp⟩
                  · refine ⟨_, List.mem_append_right _ (List.mem_singleton_self _), ?_, rfl⟩
                    exact (eq_of_beq hpm).symm
                · intro e he hv
                  rcases List.mem_append.mp he with he' | he'
                  · exact h2 e he' hv
                  · simp only [List.mem_singleton] at he'
                    subst he'
                    right
                    rfl
              · exact ⟨h1, h2⟩

lemma scan_snd_isSome (sheets : List (String × Grid)) (kws : List String) :
    ((scan_kpi_by_keywords sheets kws).1).isSome = true →
    ((scan_kpi_by_keywords sheets kws).2).isSome = true := by
  unfold scan_kpi_by_keywords
  cases sheets.findSome? (fun p =>
      ((List.range (nrows p.2)).flatMap
        (fun r => (List.range (ncols p.2)).map (fun c => (r, c)))).findSome?
        (fun rc => scan_cell p.1 p.2 kws rc.1 rc.2)) with
  | none => intro h; cases h
  | some p => intro _; rfl

lemma cashAdd_inv {k : String} {va : Option ℚ × Option String}
    {em : List Evidence × List String}
    (hva : va.1.isSome = true → va.2.isSome = true)
    (h : ∀ e ∈ em.1, e.current.isSome = true →
      e.anchor.isSome = true ∨ e.derived.isSome = true) :
    ∀ e ∈ (cashAdd k va em).1, e.current.isSome = true →
      e.anchor.isSome = true ∨ e.derived.isSome = true := by
  unfold cashAdd
  cases hv : va.1 with
  | none => exact h
  | some v =>
      intro e he hc
      rcases List.mem_append.mp he with he' | he'
      · exact h e he' hc
      · simp only [List.mem_singleton] at he'
        subst he'
        left
        exact hva (by rw [hv]; rfl)

/-- C9.  The evidence-ledger invariant, across extraction, derivation
and cash-cycle scanning: every extracted metric with a populated value
has a corresponding Evidence Entry (same metric id and value), and
every Evidence Entry with a populated current value carries a non-null
anchor or a named derivation tag — never both absent. -/
theorem evidence_ledger_invariant_claim (sheets : List (String × Grid)) (lang : String) :
    (∀ m ∈ (extract_is_metricsM sheets lang).1, m.value.isSome = true →
      ∃ e ∈ (extract_is_metricsM sheets lang).2.1, e.metric = m.key ∧ e.current = m.value) ∧
    (∀ e ∈ (extract_is_metricsM sheets lang).2.1 ++ (extract_cash_cycle sheets).2.1,
      e.current.isSome = true → e.anchor.isSome = true ∨ e.derived.isSome = true) := by
  have hinv : LedgerInv (extract_is_metricsM sheets lang) := by
    unfold extract_is_metricsM
    cases chooseIsSheet sheets with
    | none => exact ⟨(fun m hm => nomatch hm), (fun e he => nomatch he)⟩
    | some name =>
        exact derive_gm_inv (derive_opex_inv
          (foldl_isKeyStep_inv name _ IS_KEYS ([], [], [])
            ⟨(fun m hm => nomatch hm), (fun e he => nomatch he)⟩))
  have hcash : ∀ e ∈ (extract_cash_cycle sheets).2.1, e.current.isSome = true →
      e.anchor.isSome = true ∨ e.derived.isSome = true := by
    unfold extract_cash_cycle
    exact cashAdd_inv (scan_snd_isSome sheets _)
      (cashAdd_inv (scan_snd_isSome sheets _)
        (cashAdd_inv (scan_snd_isSome sheets _)
          (cashAdd_inv (scan_snd_isSome sheets _) (fun e he => by cases he))))
  refine ⟨hinv.1, ?_⟩
  intro e he hc
  rcases List.mem_append.mp he with he' | he'
  · exact hinv.2 e he' hc
  · exact hcash e he' hc

/-- Witness for C9 on the scenario workbook: the extracted revenue
metric is populated (value 1200), and the claimed corresponding
evidence entry exists in the ledger. -/
theorem evidence_ledger_invariant_witness :
    ∃ e ∈ (extract_is_metricsM
        [("S", [[Cell.str "Revenue", Cell.str "", Cell.num 1000, Cell.num 1200]])] "en").2.1,
      e.metric = (Metric.mk "revenue" "Revenue" "營收" (some 1200) (some 1000) "NTD"
        (some "S!D1")).key ∧
      e.current = (Metric.mk "revenue" "Revenue" "營收" (some 1200) (some 1000) "NTD"
        (some "S!D1")).value :=
  (evidence_ledger_invariant_claim
    [("S", [[Cell.str "Revenue", Cell.str "", Cell.num 1000, Cell.num 1200]])] "en").1
    (Metric.mk "revenue" "Revenue" "營收" (some 1200) (some 1000) "NTD" (some "S!D1"))
    (by decide) (by decide)

/-! ## Row-locator lemmas -/

lemma bestStep_le (f : Nat × Nat → Option Int) (b : Int × Option Nat) (x : Nat × Nat) :
    b.1 ≤ (bestStep f b x).1 := by
  unfold bestStep
  cases f x with
  | none => exact le_refl _
  | some sc =>
      dsimp only
      split
      · next h => exact le_of_lt h
      · exact le_refl _

lemma bestFold_le (f : Nat × Nat → Option Int) :
    ∀ (l : List (Nat × Nat)) (b : Int × Option Nat), b.1 ≤ (l.foldl (bestStep f) b).1 := by
  intro l
  induction l with
  | nil => intro b; exact le_refl _
  | cons x rest ih =>
      intro b
      simp only [List.foldl_cons]
      exact le_trans (bestStep_le f b x) (ih (bestStep f b x))

lemma bestFold_max (f : Nat × Nat → Option Int) :
    ∀ (l : List (Nat × Nat)) (b : Int × Option Nat) (x : Nat × Nat), x ∈ l →
      ∀ sc, f x = some sc → sc ≤ (l.foldl (bestStep f) b).1 := by
  intro l
  induction l with
  | nil => intro b x hx; cases hx
  | cons y rest ih =>
      intro b x hx sc hsc
      simp only [List.foldl_cons]
      rcases List.mem_cons.mp hx with rfl | hx'
      · have hstep : sc ≤ (bestStep f b x).1 := by
          unfold bestStep
          rw [hsc]
          dsimp only
          split
          · exact le_refl _
          · next h => exact le_of_not_lt h
        exact le_trans hstep (bestFold_le f rest _)
      · exact ih (bestStep f b y) x hx' sc hsc

lemma bestFold_split (f : Nat × Nat → Option Int) :
    ∀ (l : List (Nat × Nat)) (b : Int × Option Nat),
      l.foldl (bestStep f) b = b ∨
      ∃ l1 x l2, l = l1 ++ x :: l2 ∧ f x = some (l.foldl (bestStep f) b).1 ∧
        (l.foldl (bestStep f) b).2 = some x.1 ∧ b.1 < (l.foldl (bestStep f) b).1 ∧
        ∀ y ∈ l1, ∀ sc, f y = some sc → sc < (l.foldl (bestStep f) b).1 := by
  intro l
  induction l with
  | nil => intro b; left; rfl
  | cons x rest ih =>
      intro b
      simp only [List.foldl_cons]
      cases hfx : f x with
      | none =>
          have hb : bestStep f b x = b := by unfold bestStep; rw [hfx]
          rw [hb]
          rcases ih b with h | ⟨l1, y, l2, hsplit, hfy, hres2, hlt, hstrict⟩
          · left; exact h
          · right
            refine ⟨x :: l1, y, l2, by rw [hsplit]; rfl, hfy, hres2, hlt, ?_⟩
            intro z hz sc hsc
            rcases List.mem_cons.mp hz with rfl | hz'
            · rw [hfx] at hsc; cases hsc
            · exact hstrict z hz' sc hsc
      | some sc0 =>
          by_cases hgt : sc0 > b.1
          · have hb : bestStep f b x = (sc0, some x.1) := by
              unfold bestStep
              rw [hfx]
              dsimp only
              rw [if_pos hgt]
            rw [hb]
            rcases ih (sc0, some x.1) with h | ⟨l1, y, l2, hsplit, hfy, hres2, hlt, hstrict⟩
            · right
              refine ⟨[], x, rest, rfl, ?_, ?_, ?_, ?_⟩
              · rw [h]; exact hfx
              · rw [h]
              · rw [h]; exact hgt
              · intro y hy; cases hy
            · right
              refine ⟨x :: l1, y, l2, by rw [hsplit]; rfl, hfy, hres2, lt_trans hgt hlt, ?_⟩
              intro z hz sc hsc
              rcases List.mem_cons.mp hz with rfl | hz'
              · rw [hfx] at hsc
                cases hsc
                exact hlt
              · exact hstrict z hz' sc hsc
          · have hb : bestStep f b x = b := by
              unfold bestStep
              rw [hfx]
              dsimp only
              rw [if_neg hgt]
            rw [hb]
            rcases ih b with h | ⟨l1, y, l2, hsplit, hfy, hres2, hlt, hstrict⟩
            · left; exact h
            · right
              refine ⟨x :: l1, y, l2, by rw [hsplit]; rfl, hfy, hres2, hlt, ?_⟩
              intro z hz sc hsc
              rcases List.mem_cons.mp hz with rfl | hz'
              · rw [hfx] at hsc
                cases hsc
                exact lt_of_le_of_lt (le_of_not_lt hgt) hlt
              · exact hstrict z hz' sc hsc

lemma foldmax_penalty (s : String) (F : Int) :
    ∀ (kws : List String) (acc : Option Int),
      kws.foldl
        (fun acc kw =>
          let k := norm kw
          if k = "" then acc
          else
            match baseScore s k with
            | none => acc
            | some b =>
                let sc := b - 40 * F
                match acc with
                | none => some sc
                | some a => some (max a sc))
        (acc.map (fun a => a - 40 * F)) =
      ((kws.filterMap (fun kw =>
          let k := norm kw
          if k = "" then none else baseScore s k)).foldl
        (fun acc b =>
          match acc with
          | none => some b
          | some a => some (max a b)) acc).map (fun a => a - 40 * F) := by
  intro kws
  induction kws with
  | nil => intro acc; rfl
  | cons kw rest ih =>
      intro acc
      simp only [List.foldl_cons, List.filterMap_cons]
      by_cases hk : norm kw = ""
      · rw [if_pos hk, if_pos hk]
        exact ih acc
      · rw [if_neg hk, if_neg hk]
        cases hb : baseScore s (norm kw) with
        | none =>
            try dsimp only
            exact ih acc
        | some b =>
            cases acc with
            | none => exact ih (some b)
            | some a =>
                rw [show (match Option.map (fun a => a - 40 * F) (some a) with
                    | none => some (b - 40 * F)
                    | some a => some (a ⊔ (b - 40 * F))) =
                  some ((a - 40 * F) ⊔ (b - 40 * F)) from rfl]
                rw [show ((a - 40 * F) ⊔ (b - 40 * F)) = (a ⊔ b) - 40 * F from
                  max_sub_sub_right a b (40 * F)]
                exact ih (some (a ⊔ b))

lemma cell_score_eq_spec (g : Grid) (kws forbid : List String) (r c : Nat) :
    cell_score g kws forbid r c = scoreSpec g kws forbid r c := by
  unfold cell_score scoreSpec
  dsimp only
  split
  · rfl
  · split
    · rfl
    · have := foldmax_penalty (norm_text (getCell g r c)) (countForbid forbid
        (norm_text (getCell g r c)) : Int) kws none
      exact this

lemma isKeyStep_missing_mono {name : String} {df : Grid}
    {acc : List Metric × List Evidence × List String} {kv : String × List String}
    {row : Option Nat} {x : String} (h : x ∈ acc.2.2) :
    x ∈ (isKeyStep name df acc kv row).2.2 := by
  unfold isKeyStep
  cases row with
  | none => exact List.mem_append_left _ h
  | some r => exact h

lemma foldl_missing_mono (name : String) (df : Grid) :
    ∀ (keys : List (String × List String)) (acc : List Metric × List Evidence × List String)
      (x : String), x ∈ acc.2.2 →
      x ∈ (keys.foldl
        (fun acc kv => isKeyStep name df acc kv (find_rowM df kv.2 [])) acc).2.2 := by
  intro keys
  induction keys with
  | nil => intro acc x h; exact h
  | cons kv rest ih =>
      intro acc x h
      simp only [List.foldl_cons]
      exact ih _ x (isKeyStep_missing_mono h)

lemma foldl_missing_mem (name : String) (df : Grid) :
    ∀ (keys : List (String × List String)) (acc : List Metric × List Evidence × List String)
      (key : String) (kws2 : List String), (key, kws2) ∈ keys →
      find_rowM df kws2 [] = none →
      ("IS_ROW_MISSING::" ++ key) ∈ (keys.foldl
        (fun acc kv => isKeyStep name df acc kv (find_rowM df kv.2 [])) acc).2.2 := by
  intro keys
  induction keys with
  | nil => intro acc key kws2 hmem; cases hmem
  | cons kv rest ih =>
      intro acc key kws2 hmem hnone
      simp only [List.foldl_cons]
      rcases List.mem_cons.mp hmem with heq | hmem'
      · cases heq
        apply foldl_missing_mono
        unfold isKeyStep
        rw [hnone]
        exact List.mem_append_right _ (List.mem_singleton_self _)
      · exact ih _ key kws2 hmem' hnone

lemma derive_opex_missing_mono {t : List Metric × List Evidence × List String} {x : String}
    (h : x ∈ t.2.2) : x ∈ (derive_opex t).2.2 := by
  unfold derive_opex
  cases metricValue t.1 "gross_profit" with
  | none => exact List.mem_append_left _ h
  | some a =>
      cases metricValue t.1 "opex" with
      | none => exact List.mem_append_left _ h
      | some b => exact h

lemma derive_gm_missing_eq (t : List Metric × List Evidence × List String) :
    (derive_gm t).2.2 = t.2.2 := by
  unfold derive_gm
  cases t.1.find? (fun m => m.key == "gross_margin") with
  | none => rfl
  | some g0 =>
      cases metricValue t.1 "revenue" with
      | none => rfl
      | some rv =>
          cases metricValue t.1 "gross_profit" with
          | none => rfl
          | some a =>
              dsimp only
              split <;> rfl

/-- C2.  The Row Locator (with the spec-modelled cell normaliser): the
per-cell score is the best keyword base score — exact 100, prefix 90,
substring 60 — minus 40 per forbidden token found in the same cell;
`find_rowM` returns the row of the single highest-scoring candidate
cell, ties broken by first-encountered scan order (every earlier
candidate scores strictly lower); it returns NOT_FOUND (`none`) exactly
when every candidate cell scores below 50; and a NOT_FOUND row makes
the extraction caller record the `IS_ROW_MISSING::<metric>` mapping gap
rather than raise. -/
theorem row_locator_claim :
    (∀ (g : Grid) (kws forbid : List String) (r c : Nat),
      cell_score g kws forbid r c = scoreSpec g kws forbid r c) ∧
    (∀ (g : Grid) (kws forbid : List String) (r : Nat),
      find_rowM g kws forbid = some r →
      ∃ l1 c l2, candidates g = l1 ++ (r, c) :: l2 ∧
        ∃ sc, scoreSpec g kws forbid r c = some sc ∧ 50 ≤ sc ∧
          (∀ rc ∈ candidates g, ∀ sc', scoreSpec g kws forbid rc.1 rc.2 = some sc' →
            sc' ≤ sc) ∧
          (∀ rc ∈ l1, ∀ sc', scoreSpec g kws forbid rc.1 rc.2 = some sc' → sc' < sc)) ∧
    (∀ (g : Grid) (kws forbid : List String),
      find_rowM g kws forbid = none ↔
        ∀ rc ∈ candidates g, ∀ sc, scoreSpec g kws forbid rc.1 rc.2 = some sc → sc < 50) ∧
    (∀ (sheets : List (String × Grid)) (lang name key : String) (kws2 : List String),
      (key, kws2) ∈ IS_KEYS → chooseIsSheet sheets = some name →
      find_rowM (((sheets.find? (fun p => p.1 == name)).map Prod.snd).getD []) kws2 [] =
        none →
      ("IS_ROW_MISSING::" ++ key) ∈ (extract_is_metricsM sheets lang).2.2) := by
  have hspec : ∀ (g : Grid) (kws forbid : List String) (rc : Nat × Nat),
      (fun rc : Nat × Nat => cell_score g kws forbid rc.1 rc.2) rc =
        scoreSpec g kws forbid rc.1 rc.2 :=
    fun g kws forbid rc => cell_score_eq_spec g kws forbid rc.1 rc.2
  refine ⟨cell_score_eq_spec, ?_, ?_, ?_⟩
  · intro g kws forbid r h
    unfold find_rowM at h
    dsimp only at h
    split at h
    · cases h
    · next hcond =>
        push_neg at hcond
        obtain ⟨hne, hge⟩ := hcond
        rcases bestFold_split (fun rc => cell_score g kws forbid rc.1 rc.2) (candidates g)
            (-(10 ^ 9 : Int), none) with heq | ⟨l1, x, l2, hsplit, hfx, hres2, _hlt, hstrict⟩
        · rw [heq] at h
          cases h
        · rw [hres2] at h
          cases h
          refine ⟨l1, x.2, l2, by rw [hsplit], _, ?_, hge, ?_, ?_⟩
          · rw [← cell_score_eq_spec]
            exact hfx
          · intro rc hrc sc' hsc'
            rw [← cell_score_eq_spec] at hsc'
            exact bestFold_max _ (candidates g) _ rc hrc sc' hsc'
          · intro rc hrc sc' hsc'
            rw [← cell_score_eq_spec] at hsc'
            exact hstrict rc hrc sc' hsc'
  · intro g kws forbid
    constructor
    · intro h rc hrc sc hsc
      rw [← cell_score_eq_spec] at hsc
      unfold find_rowM at h
      dsimp only at h
      split at h
      · next hcond =>
          have hle := bestFold_max (fun rc => cell_score g kws forbid rc.1 rc.2)
            (candidates g) (-(10 ^ 9 : Int), none) rc hrc sc hsc
          rcases hcond with hnone | hlt
          · rcases bestFold_split (fun rc => cell_score g kws forbid rc.1 rc.2)
                (candidates g) (-(10 ^ 9 : Int), none) with heq | ⟨_, x, _, _, _, hres2, _, _⟩
            · rw [heq] at hle
              omega
            · rw [hres2] at hnone
              cases hnone
          · omega
      · next hcond =>
          exact absurd h (by push_neg at hcond; exact fun he => hcond.1 he)
    · intro hall
      unfold find_rowM
      dsimp only
      split
      · rfl
      · next hcond =>
          push_neg at hcond
          obtain ⟨hne, hge⟩ := hcond
          exfalso
          rcases bestFold_split (fun rc => cell_score g kws forbid rc.1 rc.2) (candidates g)
              (-(10 ^ 9 : Int), none) with heq | ⟨l1, x, l2, hsplit, hfx, hres2, _hlt, _⟩
          · exact hne (by rw [heq])
          · have hx : x ∈ candidates g := by
              rw [hsplit]
              exact List.mem_append_right _ (List.mem_cons_self _ _)
            have := hall x hx _ (by rw [← cell_score_eq_spec]; exact hfx)
            omega
  · intro sheets lang name key kws2 hmem hchoose hnone
    unfold extract_is_metricsM
    rw [hchoose]
    rw [derive_gm_missing_eq]
    apply derive_opex_missing_mono
    exact foldl_missing_mem name _ IS_KEYS ([], [], []) key kws2 hmem hnone

/-- Witness for C2: on the one-cell grid `[["Revenue"]]` with the
revenue keyword set, the locator returns row 0, and the theorem
instantiates to the existence of the winning candidate cell with score
at least 50 dominating every candidate. -/
theorem row_locator_witness :
    ∃ l1 c l2,
      candidates [[Cell.str "Revenue"]] = l1 ++ (0, c) :: l2 ∧
      ∃ sc, scoreSpec [[Cell.str "Revenue"]]
          ["營業收入", "revenue", "total revenue", "net sales", "sales"] [] 0 c = some sc ∧
        50 ≤ sc ∧
        (∀ rc ∈ candidates [[Cell.str "Revenue"]], ∀ sc',
          scoreSpec [[Cell.str "Revenue"]]
            ["營業收入", "revenue", "total revenue", "net sales", "sales"] [] rc.1 rc.2 =
            some sc' → sc' ≤ sc) ∧
        (∀ rc ∈ l1, ∀ sc',
          scoreSpec [[Cell.str "Revenue"]]
            ["營業收入", "revenue", "total revenue", "net sales", "sales"] [] rc.1 rc.2 =
            some sc' → sc' < sc) :=
  row_locator_claim.2.1 [[Cell.str "Revenue"]]
    ["營業收入", "revenue", "total revenue", "net sales", "sales"] [] 0 (by decide)

end PnlCoo
